import Mathlib

/-!
# oula-account-monitor: status classification, overview aggregation, reports

A shallow embedding of `main.go`.

* Instants are exact integers: a `time.Time` is a number of nanoseconds since the Unix
  epoch (the documented meaning of `time.Unix`, `time.Now` and `Time.Sub`), and the
  value of SQL `NOW()` is a number of microseconds since the Unix epoch (the resolution
  of a PostgreSQL timestamp).  `Time.Sub` saturates at the ends of the int64 range of
  `time.Duration`, as documented.  `time.Unix` keeps seconds since year 1 in an int64:
  for a timestamp within 62135596800 s of the top of the int64 range that count wraps,
  and the Time it returns lies far in the past (`Time.Unix`, `wrapInt64`).
* `time.LoadLocation("Asia/Shanghai")` is taken to succeed; the zone only affects how a
  time is rendered.
* `Duration.Seconds` is a float64 in Go.  It is kept here as the exact count of
  nanoseconds `sec * 1e9 + nsec` it is computed from; the comparisons with the two
  thresholds are exact on float64 because `600 + 1e-9` and `86400 + 1e-9` are
  representable above `600` and `86400`.
* The program's input is the store.  `Store` gives the outcome of each statement the
  program sends (rows, or an error); `tablesStore` computes these outcomes from four
  tables, each SQL statement of the source evaluated over them with SQL's NULL as
  `Option`.  Reward amounts are exact rationals.  The rows of a `db.Query` are taken as
  fully delivered.
* The state threaded through a run (`Sys`) records how often `time.Now()` was read and
  which statements were sent, so that "nothing was read" can be stated.
* `log.Fatalf` ends the process: functions that can reach it return `Option`,
  and `none` is the terminated process.
* The renderings of floats and dates by `fmt` and `time` are parameters (`Fmt`).
-/

namespace OulaMonitor

/-! ## Time -/

/-- Time zone attached to a `time.Time`; it only affects rendering. -/
inductive Location
  | utc
  | localZone
  | shanghai
deriving DecidableEq, Repr

/-- Go `time.Time`: an instant (nanoseconds since the Unix epoch) and a zone. -/
structure Time where
  unixNano : Int
  loc : Location
deriving DecidableEq, Repr

/-- Go `time.Duration`: a count of nanoseconds in the int64 range. -/
abbrev Duration := Int

/-- Go `time.Second`. -/
def Second : Int := 1000000000

/-- Largest `time.Duration`, `1<<63 - 1`. -/
def maxDuration : Int := 9223372036854775807

/-- Smallest `time.Duration`, `-1 << 63`. -/
def minDuration : Int := -9223372036854775808

/-- The zero `time.Time{}`: January 1, year 1, 00:00:00 UTC. -/
def Time.zero : Time := { unixNano := -62135596800 * 1000000000, loc := Location.utc }

/-- Two's-complement wrap of an integer into the int64 range, as Go's signed arithmetic
does on overflow. -/
def wrapInt64 (x : Int) : Int :=
  (x + 9223372036854775808) % 18446744073709551616 - 9223372036854775808

/-- Go `unixToInternal`: the seconds from January 1, year 1 to the Unix epoch. -/
def unixToInternal : Int := 62135596800

/-- Go `time.Unix(sec, 0)`.  The runtime keeps `sec + unixToInternal` in an int64, so the
sum wraps for the top 62135596800 values of `sec`; the Time returned is the instant that
the wrapped count of seconds stands for. -/
def Time.Unix (sec : Int) : Time :=
  { unixNano := (wrapInt64 (sec + unixToInternal) - unixToInternal) * 1000000000
    loc := Location.localZone }

/-- Go `t.In(loc)`: same instant, other zone. -/
def Time.In (t : Time) (l : Location) : Time := { t with loc := l }

/-- Go `t.Sub(u)`: the duration `t - u`, saturated to the range of `Duration`. -/
def Time.Sub (t u : Time) : Duration :=
  let d : Int := t.unixNano - u.unixNano
  if d < minDuration then minDuration
  else if maxDuration < d then maxDuration
  else d

/-- Go `d.Seconds()`: `sec := d / Second; nsec := d % Second; float64(sec) + float64(nsec)/1e9`,
kept as the exact number of nanoseconds `sec * 1e9 + nsec`. -/
def Duration.Seconds (d : Duration) : Int :=
  let sec := Int.tdiv d Second
  let nsec := Int.tmod d Second
  sec * 1000000000 + nsec

/-- The comparison `x <= c` of a `Seconds()` value `x` (in nanoseconds) with a constant `c`
given in whole seconds. -/
def secondsLe (x : Int) (c : Int) : Bool := decide (x ≤ c * 1000000000)

/-- Go `sql.NullInt64`. -/
structure NullInt64 where
  Int64 : Int
  Valid : Bool
deriving DecidableEq, Repr

/-! ## Status classification -/

/-- Threshold `ActiveThreshold = 600` (10 minutes), in seconds. -/
def ActiveThreshold : Int := 600

/-- Threshold `InactiveThreshold = 86400` (24 hours), in seconds. -/
def InactiveThreshold : Int := 86400

def statusInvalid : String := "Invalid (无效)"
def statusActive : String := "Active (活跃)"
def statusInactive : String := "Inactive (不活跃)"
def statusFailed : String := "Failed (失效)"

/-- Go `ConvertToShanghaiTime(timestamp, now)`.  `time.LoadLocation("Asia/Shanghai")` is
taken to succeed (the code discards its error). -/
def ConvertToShanghaiTime (timestamp : NullInt64) (now : Time) : Time × Duration × String :=
  if !timestamp.Valid then
    (Time.zero, 0, statusInvalid)
  else
    let location := Location.shanghai
    let lastCommitTime := (Time.Unix timestamp.Int64).In location
    let timeDifference := now.Sub lastCommitTime
    if secondsLe (Duration.Seconds timeDifference) ActiveThreshold then
      (lastCommitTime, timeDifference, statusActive)
    else if secondsLe (Duration.Seconds timeDifference) InactiveThreshold then
      (lastCommitTime, timeDifference, statusInactive)
    else
      (lastCommitTime, timeDifference, statusFailed)

/-- The status string returned by `ConvertToShanghaiTime`. -/
def statusOf (timestamp : NullInt64) (now : Time) : String :=
  (ConvertToShanghaiTime timestamp now).2.2

/-! ## Rows delivered by the store -/

/-- Error value of a `database/sql` call: `sql.ErrNoRows` or any other error. -/
inductive SqlErr
  | ErrNoRows
  | other (msg : String)
deriving DecidableEq, Repr

/-- Go `err.Error()`. -/
def SqlErr.Error : SqlErr → String
  | SqlErr.ErrNoRows => "sql: no rows in result set"
  | SqlErr.other msg => msg

/-- The six columns of the overview statement, as scanned by `getOverview`. -/
structure OverviewRow where
  main_account_name : String
  total_machines : Int
  active_machines : Int
  inactive_machines : Int
  failed_machines : Int
  invalid_machines : Int
deriving DecidableEq, Repr

/-- One row of the machine-details statement; `none` is SQL NULL. -/
structure MachineRow where
  created_at : Option String
  name : Option String
  project : Option String
  last_commit_solution : Option Int
deriving DecidableEq, Repr

/-- One row of the reward-records statement; `none` is SQL NULL. -/
structure RewardRow where
  created_at : Option Time
  reward : Option ℚ
  pay_status : Option String
deriving DecidableEq

/-- The statements the program sends to the primary store. -/
inductive Query
  | subAccounts (mainAccountName : String)
  | overview (subAccountName : String)
  | ids (subAccountName : String)
  | rewardRows (subAccountName : String)
  | rewardTotal (subAccountName : String)
  | machineDetails (subAccountName : String)
deriving DecidableEq, Repr

/-- Outcome of each statement of the program on the primary store: `db.Query` gives the
rows or an error text, `db.QueryRow(..).Scan` gives the scanned row or an error. -/
structure Store where
  subAccounts : String → Except String (List (Option String))
  overview : String → Except SqlErr OverviewRow
  ids : String → Except SqlErr (Int × Int × String)
  rewardRows : String → Except String (List RewardRow)
  rewardTotal : String → Except SqlErr ℚ
  machineDetails : String → Except String (List MachineRow)

/-- Renderings taken from Go's `fmt` and `time`: `Format("2006-01-02 15:04:05")`,
the verb `%.2f` and the verb `%.0f` applied to `Duration.Seconds` (given in nanoseconds). -/
structure Fmt where
  time : Time → String
  f2 : ℚ → String
  f0 : Int → String

/-- What a request runs against: the successive readings of `time.Now()`, the store as the
statement number `k` of the run sees it, and the renderings. -/
structure Env where
  clock : Nat → Time
  store : Nat → Store
  fmt : Fmt

/-- State threaded through a run: how many times the clock was read, and the statements
executed so far, oldest first. -/
structure Sys where
  reads : Nat
  log : List Query
deriving DecidableEq, Repr

/-- Go `time.Now()`. -/
def timeNow (env : Env) (s : Sys) : Time × Sys :=
  (env.clock s.reads, { s with reads := s.reads + 1 })

/-- Record that a statement was executed. -/
def Sys.exec (s : Sys) (q : Query) : Sys :=
  { s with log := s.log ++ [q] }

/-- The store as seen by the next statement. -/
def Env.cur (env : Env) (s : Sys) : Store :=
  env.store s.log.length

/-! ## Overview -/

/-- Go `Machine`. -/
structure Machine where
  CreatedAt : String
  Name : String
  Project : String
  LastCommitSolution : String
  Status : String
deriving DecidableEq, Repr

/-- Go `Overview`. -/
structure Overview where
  MainAccountName : String
  TotalMachines : Int
  ActiveMachines : Int
  InactiveMachines : Int
  FailedMachines : Int
  InvalidMachines : Int
  Machines : List Machine
deriving DecidableEq, Repr

/-- Go `getOverview(db, subAccountName)`: the overview, or the error of the statement. -/
def getOverview (env : Env) (s : Sys) (subAccountName : String) : Except SqlErr Overview × Sys :=
  let s1 := s.exec (Query.overview subAccountName)
  match (env.cur s).overview subAccountName with
  | Except.error SqlErr.ErrNoRows =>
    (Except.ok { MainAccountName := "", TotalMachines := 0, ActiveMachines := 0,
                 InactiveMachines := 0, FailedMachines := 0, InvalidMachines := 0,
                 Machines := [] }, s1)
  | Except.error err => (Except.error err, s1)
  | Except.ok row =>
    let overview : Overview :=
      { MainAccountName := row.main_account_name, TotalMachines := row.total_machines,
        ActiveMachines := row.active_machines, InactiveMachines := row.inactive_machines,
        FailedMachines := row.failed_machines, InvalidMachines := row.invalid_machines,
        Machines := [] }
    if overview.TotalMachines = 0 then
      (Except.ok { overview with InvalidMachines := 0 }, s1)
    else
      (Except.ok overview, s1)

/-! ## Rewards -/

/-- Go `rows.Scan(&createdAt, &reward, &payStatus)`: fails on a NULL column. -/
def scanReward (r : RewardRow) : Option (Time × ℚ × String) :=
  match r.created_at, r.reward, r.pay_status with
  | some c, some w, some p => some (c, w, p)
  | _, _, _ => none

/-- One pass of the loop over the reward rows: a row that does not scan is skipped. -/
def rewardRowHtml (fmt : Fmt) (res : String) (r : RewardRow) : String :=
  match scanReward r with
  | none => res
  | some (createdAt, reward, payStatus) =>
    res ++ ("<tr><td>" ++ fmt.time createdAt ++ "</td><td>" ++ fmt.f2 reward ++ "</td><td>"
      ++ payStatus ++ "</td></tr>")

/-- The text built by `showSubAccountRewards` once both statements have succeeded. -/
def rewardsHtml (fmt : Fmt) (totalReward : ℚ) (rows : List RewardRow) : String :=
  let res := ""
  let res := res ++ "<h3>收益明细 - Reward Records</h3>"
  let res := res ++ ("<p><strong>总收益 (已验证) - Total Verified Reward: " ++ fmt.f2 totalReward
    ++ "</strong></p>")
  let res := res ++ "<table border=\"1\" cellpadding=\"5\" cellspacing=\"0\">"
  let res := res ++ "<tr><th>日期 (Created At)</th><th>奖励 (Reward)</th><th>支付状态 (Pay Status)</th></tr>"
  let res := rows.foldl (rewardRowHtml fmt) res
  res ++ "</table>"

/-- Go `showSubAccountRewards(db, subAccountName)`. -/
def showSubAccountRewards (env : Env) (s : Sys) (subAccountName : String) : String × Sys :=
  let s1 := s.exec (Query.rewardRows subAccountName)
  match (env.cur s).rewardRows subAccountName with
  | Except.error _ => ("", s1)
  | Except.ok rows =>
    let s2 := s1.exec (Query.rewardTotal subAccountName)
    match (env.cur s1).rewardTotal subAccountName with
    | Except.error _ => ("", s2)
    | Except.ok totalReward => (rewardsHtml env.fmt totalReward rows, s2)

/-! ## Report of one sub-account -/

/-- The `sql.NullInt64` that `Scan` fills from a nullable integer column. -/
def nullInt64Of : Option Int → NullInt64
  | some v => { Int64 := v, Valid := true }
  | none => { Int64 := 0, Valid := false }

/-- Go `rows.Scan(&machine.CreatedAt, &machine.Name, &machine.Project, &lastCommitTimestamp)`:
the three string columns fail on NULL, the `sql.NullInt64` column accepts it. -/
def scanMachine (r : MachineRow) : Option (Machine × NullInt64) :=
  match r.created_at, r.name, r.project with
  | some c, some n, some p =>
    some ({ CreatedAt := c, Name := n, Project := p, LastCommitSolution := "", Status := "" },
      nullInt64Of r.last_commit_solution)
  | _, _, _ => none

/-- The table row written for a machine that scanned. -/
def machineHtml (fmt : Fmt) (now : Time) (subAccountName : String) (machine : Machine)
    (lastCommitTimestamp : NullInt64) : String :=
  let r := ConvertToShanghaiTime lastCommitTimestamp now
  let lastCommitTime := r.1
  let timeDiff := r.2.1
  let machine := { machine with Status := r.2.2 }
  if lastCommitTimestamp.Valid then
    "<tr><td>" ++ subAccountName ++ "</td><td>" ++ machine.CreatedAt ++ "</td><td>" ++ machine.Name
      ++ "</td><td>" ++ machine.Project ++ "</td><td>" ++ fmt.time lastCommitTime ++ "</td><td>"
      ++ fmt.f0 (Duration.Seconds timeDiff) ++ "</td><td>" ++ machine.Status ++ "</td></tr>"
  else
    "<tr><td>" ++ subAccountName ++ "</td><td>" ++ machine.CreatedAt ++ "</td><td>" ++ machine.Name
      ++ "</td><td>" ++ machine.Project ++ "</td><td>无效</td><td>-</td><td>" ++ machine.Status
      ++ "</td></tr>"

/-- One pass of the loop over the machine rows in `runOnce`: a row that does not scan is
logged and skipped. -/
def machineRowHtml (fmt : Fmt) (now : Time) (subAccountName : String) (res : String)
    (r : MachineRow) : String :=
  match scanMachine r with
  | none => res
  | some (machine, lastCommitTimestamp) =>
    res ++ machineHtml fmt now subAccountName machine lastCommitTimestamp

/-- The summary lines of a report, before the optional machine table. -/
def overviewHtml (subAccountName : String) (subAccountID mainAccountID : Int) (overview : Overview)
    (rewardRecord : String) : String :=
  ("<h2>子账户总览信息 - Sub-account Overview for " ++ subAccountName ++ "(" ++ toString subAccountID ++ ")</h2>")
    ++ ("<p>主账户名称 - Main Account: " ++ overview.MainAccountName ++ "(" ++ toString mainAccountID ++ ")</p>")
    ++ ("<p>总机器数 - Total Machines: " ++ toString overview.TotalMachines ++ "</p>")
    ++ ("<p>活跃机器数 - Active Machines: " ++ toString overview.ActiveMachines ++ "</p>")
    ++ ("<p>不活跃机器数 - Inactive Machines: " ++ toString overview.InactiveMachines ++ "</p>")
    ++ ("<p>失效机器数 - Failed Machines: " ++ toString overview.FailedMachines ++ "</p>")
    ++ ("<p>无效机器数 - Invalid Machines: " ++ toString overview.InvalidMachines ++ "</p>")
    ++ rewardRecord

/-- Opening of the machine table. -/
def machineTableHead : String :=
  "<h3>机器详细信息 - Machine Details</h3>"
    ++ "<table border=\"1\" cellpadding=\"5\" cellspacing=\"0\">"
    ++ "<tr><th>子账户</th><th>创建时间</th><th>机器名称</th><th>项目</th><th>最近提交时间</th><th>时间差(秒)</th><th>状态</th></tr>"

/-- The text `runOnce` returns when `getOverview` fails. -/
def overviewErrorText (subAccountName : String) (err : SqlErr) : String :=
  "Error fetching overview for " ++ subAccountName ++ ": " ++ err.Error

/-- The body of `runOnce` after `now := time.Now()`; `none` is `log.Fatalf`. -/
def runOnceAt (env : Env) (now : Time) (s : Sys) (subAccountName : String) (showDetails : Bool) :
    Option (String × Sys) :=
  match getOverview env s subAccountName with
  | (Except.error err, s) => some (overviewErrorText subAccountName err, s)
  | (Except.ok overview, s) =>
    let s1 := s.exec (Query.ids subAccountName)
    match (env.cur s).ids subAccountName with
    | Except.error _ => none
    | Except.ok (mainAccountID, subAccountID, mainAccountName) =>
      let overview := { overview with MainAccountName := mainAccountName }
      let rw := showSubAccountRewards env s1 subAccountName
      let rewardRecord := rw.1
      let s2 := rw.2
      let res := overviewHtml subAccountName subAccountID mainAccountID overview rewardRecord
      if showDetails then
        let s3 := s2.exec (Query.machineDetails subAccountName)
        match (env.cur s2).machineDetails subAccountName with
        | Except.error _ => none
        | Except.ok rows =>
          let res := res ++ machineTableHead
          let res := rows.foldl (machineRowHtml env.fmt now subAccountName) res
          let res := res ++ "</table>"
          some (res, s3)
      else
        some (res, s2)

/-- Go `runOnce(db, zkRushDB, subAccountName, showDetails)`. -/
def runOnce (env : Env) (s : Sys) (subAccountName : String) (showDetails : Bool) :
    Option (String × Sys) :=
  let t := timeNow env s
  runOnceAt env t.1 t.2 subAccountName showDetails

/-! ## Walk over the sub-accounts of a main account -/

/-- The loop `for rows.Next()` of `runForMainAccount`: a row whose name does not scan ends
the process, and so does a `runOnce` that ends it. -/
def walkRows (env : Env) (showDetails : Bool) :
    List (Option String) → String → Sys → Option (String × Sys)
  | [], res, s => some (res, s)
  | none :: _, _, _ => none
  | some subAccountName :: rows, res, s =>
    match runOnce env s subAccountName showDetails with
    | none => none
    | some (r, s1) => walkRows env showDetails rows (res ++ r) s1

/-- Go `runForMainAccount(db, zkRushDB, mainAccountName, showDetails)`. -/
def runForMainAccount (env : Env) (s : Sys) (mainAccountName : String) (showDetails : Bool) :
    Option (String × Sys) :=
  let s1 := s.exec (Query.subAccounts mainAccountName)
  match (env.cur s).subAccounts mainAccountName with
  | Except.error _ => none
  | Except.ok rows => walkRows env showDetails rows "" s1

/-! ## Request handlers -/

/-- The reply written by `c.JSON(code, gin.H{...})`. -/
structure Response where
  code : Nat
  body : List (String × String)
deriving DecidableEq, Repr

/-- Go `http.StatusOK`. -/
def StatusOK : Nat := 200

/-- Go `http.StatusBadRequest`. -/
def StatusBadRequest : Nat := 400

/-- The handler of `POST /main-account`, given the two form values.  `connectDatabases`
only calls `sql.Open`, which sends no statement. -/
def postMainAccount (env : Env) (s : Sys) (mainAccountName showDetailsForm : String) :
    Option (Response × Sys) :=
  let showDetails := showDetailsForm == "true"
  if mainAccountName ≠ "" then
    match runForMainAccount env s mainAccountName showDetails with
    | none => none
    | some (result, s1) =>
      some ({ code := StatusOK,
              body := [("message", "Main account " ++ mainAccountName ++ " processed"),
                       ("result", result)] }, s1)
  else
    some ({ code := StatusBadRequest, body := [("error", "Invalid main account")] }, s)

/-- The handler of `POST /sub-account`, given the two form values. -/
def postSubAccount (env : Env) (s : Sys) (subAccountName showDetailsForm : String) :
    Option (Response × Sys) :=
  let showDetails := showDetailsForm == "true"
  if subAccountName ≠ "" then
    match runOnce env s subAccountName showDetails with
    | none => none
    | some (result, s1) =>
      some ({ code := StatusOK,
              body := [("message", "Sub-account " ++ subAccountName ++ " processed"),
                       ("result", result)] }, s1)
  else
    some ({ code := StatusBadRequest, body := [("error", "Invalid sub-account")] }, s)

/-! ## The tables and the SQL statements -/

/-- A row of table `"user"`. -/
structure UserRec where
  id : Int
  email : String
deriving DecidableEq, Repr

/-- A row of table `miner_account` (a sub-account). -/
structure MinerAccountRec where
  id : Int
  name : String
  main_user_id : Int
deriving DecidableEq, Repr

/-- A row of table `machine`; `last_commit_solution` is epoch seconds or NULL. -/
structure MachineRec where
  id : Int
  miner_account_id : Int
  created_at : Option String
  name : Option String
  project : Option String
  last_commit_solution : Option Int
deriving DecidableEq, Repr

/-- A row of table `distributor`; `created_at` holds the value of
`created_at AT TIME ZONE 'Asia/Shanghai'` as the driver delivers it. -/
structure DistributorRec where
  miner_account_id : Int
  created_at : Option Time
  reward : Option ℚ
  pay_status : Option String
  status : Option String
deriving DecidableEq

/-- The four tables the program reads. -/
structure Tables where
  user : List UserRec
  miner_account : List MinerAccountRec
  machine : List MachineRec
  distributor : List DistributorRec

/-- SQL `a >= x` for a nullable epoch-seconds column `a` and a value `x` in microseconds. -/
def sqlGe (a : Option Int) (x : Int) : Option Bool :=
  a.map fun v => decide (x ≤ v * 1000000)

/-- SQL `a < x` for a nullable epoch-seconds column `a` and a value `x` in microseconds. -/
def sqlLt (a : Option Int) (x : Int) : Option Bool :=
  a.map fun v => decide (v * 1000000 < x)

/-- SQL three-valued `AND`. -/
def sqlAnd : Option Bool → Option Bool → Option Bool
  | some false, _ => some false
  | _, some false => some false
  | some true, some true => some true
  | _, _ => none

/-- SQL `CASE WHEN c THEN 1 ELSE 0 END`: the `ELSE` branch is taken on false and on NULL. -/
def caseWhen (c : Option Bool) : Int :=
  if c = some true then 1 else 0

/-- SQL `COUNT(col)`: the number of non-NULL values. -/
def sqlCount {α : Type} (col : List (Option α)) : Int :=
  ((col.filter Option.isSome).length : Int)

/-- SQL `SUM(col)`: NULL when there is no non-NULL value. -/
def sqlSum {α : Type} [Add α] [Zero α] (col : List (Option α)) : Option α :=
  match col.filterMap id with
  | [] => none
  | v :: vs => some (v :: vs).sum

/-- SQL `COALESCE(a, d)`. -/
def coalesce {α : Type} (a : Option α) (d : α) : α :=
  a.getD d

/-- SQL `EXTRACT(EPOCH FROM NOW()) - secs`, in microseconds. -/
def epochMinus (nowMicros secs : Int) : Int :=
  nowMicros - secs * 1000000

/-- The rows of `miner_account ma LEFT JOIN machine m ON m.miner_account_id = ma.id` for one
`ma`: its machines, or a single all-NULL machine when it has none. -/
def leftJoinMachine (db : Tables) (ma : MinerAccountRec) : List (Option MachineRec) :=
  match db.machine.filter (fun m => decide (m.miner_account_id = ma.id)) with
  | [] => [none]
  | m :: ms => (m :: ms).map some

/-- The joined rows of the overview statement:
`miner_account ma LEFT JOIN machine m .. JOIN "user" u ON ma.main_user_id = u.id WHERE ma.name = name`. -/
def overviewJoin (db : Tables) (name : String) : List (UserRec × Option MachineRec) :=
  (db.miner_account.filter (fun ma => decide (ma.name = name))).flatMap fun ma =>
    (leftJoinMachine db ma).flatMap fun m =>
      (db.user.filter (fun u => decide (ma.main_user_id = u.id))).map fun u => (u, m)

/-- The aggregate columns of the overview statement over one group of joined rows. -/
def overviewAggregate (nowMicros : Int) (email : String) (g : List (Option MachineRec)) :
    OverviewRow :=
  let lcs : Option MachineRec → Option Int := fun m => m.bind fun r => r.last_commit_solution
  { main_account_name := email
    total_machines := sqlCount (g.map fun m => m.map fun r => r.id)
    active_machines := coalesce (sqlSum (g.map fun m =>
      some (caseWhen (sqlGe (lcs m) (epochMinus nowMicros 600))))) 0
    inactive_machines := coalesce (sqlSum (g.map fun m =>
      some (caseWhen (sqlAnd (sqlLt (lcs m) (epochMinus nowMicros 600))
        (sqlGe (lcs m) (epochMinus nowMicros 86400)))))) 0
    failed_machines := coalesce (sqlSum (g.map fun m =>
      some (caseWhen (sqlLt (lcs m) (epochMinus nowMicros 86400))))) 0
    invalid_machines := coalesce (sqlSum (g.map fun m =>
      some (caseWhen (some (lcs m).isNone)))) 0 }

/-- The overview statement with `QueryRow(..).Scan`, for a name that the text
`WHERE ma.name = '%s'` turns into a plain string literal: the first group of
`GROUP BY u.email`, or `sql.ErrNoRows`. -/
def overviewQuery (db : Tables) (nowMicros : Int) (name : String) : Except SqlErr OverviewRow :=
  match overviewJoin db name with
  | [] => Except.error SqlErr.ErrNoRows
  | (u, m) :: rest =>
    let g := ((u, m) :: rest).filter fun r => decide (r.1.email = u.email)
    Except.ok (overviewAggregate nowMicros u.email (g.map fun r => r.2))

/-- The statement of `runOnce` that resolves the identifiers, with `QueryRow(..).Scan`. -/
def idsQuery (db : Tables) (name : String) : Except SqlErr (Int × Int × String) :=
  match (db.miner_account.filter (fun ma => decide (ma.name = name))).flatMap (fun ma =>
      (db.user.filter (fun u => decide (ma.main_user_id = u.id))).map fun u => (u.id, ma.id, u.email)) with
  | [] => Except.error SqlErr.ErrNoRows
  | r :: _ => Except.ok r

/-- The statement of `runForMainAccount`: the names of the sub-accounts whose user has the
given e-mail. -/
def subAccountsQuery (db : Tables) (mainAccountName : String) : List (Option String) :=
  db.miner_account.flatMap fun ma =>
    ((db.user.filter (fun u => decide (ma.main_user_id = u.id ∧ u.email = mainAccountName))).map
      fun _ => some ma.name)

/-- The scalar subquery `(SELECT id FROM miner_account WHERE name = $1)`: NULL on no row,
an error on more than one. -/
def subAccountIdSubquery (db : Tables) (name : String) : Except String (Option Int) :=
  match db.miner_account.filter (fun ma => decide (ma.name = name)) with
  | [] => Except.ok none
  | [ma] => Except.ok (some ma.id)
  | _ :: _ :: _ => Except.error "more than one row returned by a subquery used as an expression"

/-- The order of `ORDER BY created_at DESC` (NULLs first). -/
def createdAtDesc (a b : DistributorRec) : Prop :=
  match a.created_at, b.created_at with
  | none, _ => True
  | some _, none => False
  | some x, some y => y.unixNano ≤ x.unixNano

instance createdAtDescDecidable : DecidableRel createdAtDesc := fun a b => by
  unfold createdAtDesc
  cases a.created_at <;> cases b.created_at <;> simp only <;> infer_instance

/-- The reward-records statement. -/
def rewardRowsQuery (db : Tables) (name : String) : Except String (List RewardRow) :=
  match subAccountIdSubquery db name with
  | Except.error e => Except.error e
  | Except.ok sub =>
    Except.ok (((db.distributor.filter fun d => decide (some d.miner_account_id = sub)).insertionSort
      createdAtDesc).map fun d =>
        { created_at := d.created_at, reward := d.reward, pay_status := d.pay_status })

/-- The total statement: `COALESCE(SUM(reward), 0)` over the sub-account's rows
with `status = 'verified'`. -/
def rewardTotalQuery (db : Tables) (name : String) : Except SqlErr ℚ :=
  match subAccountIdSubquery db name with
  | Except.error e => Except.error (SqlErr.other e)
  | Except.ok sub =>
    Except.ok (coalesce (sqlSum ((db.distributor.filter fun d =>
      decide (some d.miner_account_id = sub) && decide (d.status = some "verified")).map
        fun d => d.reward)) 0)

/-- The machine-details statement of `runOnce`. -/
def machineDetailsQuery (db : Tables) (name : String) : List MachineRow :=
  db.machine.flatMap fun m =>
    ((db.miner_account.filter (fun ma => decide (m.miner_account_id = ma.id ∧ ma.name = name))).map
      fun _ => { created_at := m.created_at, name := m.name, project := m.project,
                 last_commit_solution := m.last_commit_solution })

/-- The code of the character that delimits SQL string literals. -/
def quoteChar : Char := Char.ofNat 39

/-- The store backed by the tables at one moment.  The overview statement is built by
`fmt.Sprintf` with `'%s'`; when the name contains a quote the statement text is another
statement, whose outcome is the parameter `quoted`. -/
def tablesStore (db : Tables) (quoted : String → Except SqlErr OverviewRow) (nowMicros : Int) :
    Store :=
  { subAccounts := fun n => Except.ok (subAccountsQuery db n)
    overview := fun n => if quoteChar ∈ n.toList then quoted n else overviewQuery db nowMicros n
    ids := fun n => idsQuery db n
    rewardRows := fun n => rewardRowsQuery db n
    rewardTotal := fun n => rewardTotalQuery db n
    machineDetails := fun n => Except.ok (machineDetailsQuery db n) }

/-- An environment whose store is a fixed set of tables, with the reading `sqlNow k` of
`NOW()` for statement number `k`. -/
def tablesEnv (db : Tables) (quoted : String → Except SqlErr OverviewRow) (sqlNow : Nat → Int)
    (clock : Nat → Time) (fmt : Fmt) : Env :=
  { clock := clock
    store := fun k => tablesStore db quoted (sqlNow k)
    fmt := fmt }

/-- The sub-account `ma` is the one named `name`. -/
def Tables.IsSubAccount (db : Tables) (name : String) (ma : MinerAccountRec) : Prop :=
  db.miner_account.filter (fun a => decide (a.name = name)) = [ma]

/-- The user `u` is the main account that owns `ma`. -/
def Tables.IsOwner (db : Tables) (ma : MinerAccountRec) (u : UserRec) : Prop :=
  db.user.filter (fun v => decide (ma.main_user_id = v.id)) = [u]

instance Tables.IsSubAccount.decidable (db : Tables) (name : String) (ma : MinerAccountRec) :
    Decidable (db.IsSubAccount name ma) := by
  unfold Tables.IsSubAccount
  infer_instance

instance Tables.IsOwner.decidable (db : Tables) (ma : MinerAccountRec) (u : UserRec) :
    Decidable (db.IsOwner ma u) := by
  unfold Tables.IsOwner
  infer_instance

/-- The machines of a sub-account, in table order. -/
def Tables.machinesOf (db : Tables) (ma : MinerAccountRec) : List MachineRec :=
  db.machine.filter fun m => decide (m.miner_account_id = ma.id)

/-- The name holds no quote, so that `'%s'` with the name in it is one string literal
with the name as its value. -/
def PlainName (name : String) : Prop :=
  quoteChar ∉ name.toList

/-! ## Statements the code is compared with -/

/-- The epoch seconds that `time.Unix` holds without overflow: an int64 `v` with
`v + 62135596800` still an int64. -/
def UnixInRange (v : Int) : Prop :=
  -9223372036854775808 ≤ v ∧ v ≤ 9223371974719179007

instance UnixInRange.decidable (v : Int) : Decidable (UnixInRange v) := by
  unfold UnixInRange
  infer_instance

/-- Per-row classification: the number of machines to which `ConvertToShanghaiTime` gives
`status` at `now`. -/
def classifiedAs (now : Time) (status : String) (ms : List MachineRec) : Int :=
  ((ms.filter fun m => decide (statusOf (nullInt64Of m.last_commit_solution) now = status)).length : Int)

instance PlainName.decidable (name : String) : Decidable (PlainName name) := by
  unfold PlainName
  infer_instance

/-- At most one sub-account has the name. -/
def Tables.NameUnique (db : Tables) (name : String) : Prop :=
  (db.miner_account.filter (fun a => decide (a.name = name))).length ≤ 1

instance Tables.NameUnique.decidable (db : Tables) (name : String) :
    Decidable (db.NameUnique name) := by
  unfold Tables.NameUnique
  infer_instance

/-- Concatenation of a list of texts, in order. -/
def joinAll : List String → String
  | [] => ""
  | a :: l => a ++ joinAll l

/-- The reports of `runOnce` applied to each name in turn, the state threaded through;
`none` when one of the runs ends the process. -/
def runEach (env : Env) (sd : Bool) : List String → Sys → Option (List String × Sys)
  | [], s => some ([], s)
  | n :: ns, s =>
    match runOnce env s n sd with
    | none => none
    | some (r, s1) =>
      match runEach env sd ns s1 with
      | none => none
      | some (rs, s2) => some (r :: rs, s2)

/-- The walk of `runForMainAccount` with the `now` of each report given from outside: the
report of row number `k` is computed at `nows k`. -/
def walkRowsWith (env : Env) (sd : Bool) :
    (Nat → Time) → List (Option String) → String → Sys → Option (String × Sys)
  | _, [], res, s => some (res, s)
  | _, none :: _, _, _ => none
  | nows, some subAccountName :: rows, res, s =>
    match runOnceAt env (nows 0) (timeNow env s).2 subAccountName sd with
    | none => none
    | some (r, s1) => walkRowsWith env sd (fun k => nows (k + 1)) rows (res ++ r) s1

/-- The run of `runForMainAccount` with the `now` of each report given from outside. -/
def runForMainAccountWith (env : Env) (nows : Nat → Time) (s : Sys) (mainAccountName : String)
    (showDetails : Bool) : Option (String × Sys) :=
  match (env.cur s).subAccounts mainAccountName with
  | Except.error _ => none
  | Except.ok rows =>
    walkRowsWith env showDetails nows rows "" (s.exec (Query.subAccounts mainAccountName))

/-- The hierarchy requirement: the whole walk is computed against one `now`. -/
def WalkUsesOneNow (env : Env) (s : Sys) (mainAccountName : String) (showDetails : Bool) : Prop :=
  ∃ now : Time,
    (runForMainAccount env s mainAccountName showDetails).map Prod.fst
      = (runForMainAccountWith env (fun _ => now) s mainAccountName showDetails).map Prod.fst

/-- The name of the sub-account of an overview statement in the log. -/
def overviewName : Query → Option String
  | Query.overview n => some n
  | _ => none

/-- The names of the sub-accounts resolved for a main account, in the order of the
statement of `runForMainAccount`. -/
def resolvedSubAccounts (db : Tables) (mainAccountName : String) : List String :=
  db.miner_account.flatMap fun ma =>
    ((db.user.filter (fun u => decide (ma.main_user_id = u.id ∧ u.email = mainAccountName))).map
      fun _ => ma.name)

/-- The reward records of the sub-account named `name` whose legacy status field is
`verified`. -/
def verifiedRecords (db : Tables) (name : String) : List DistributorRec :=
  db.distributor.filter fun d =>
    decide (∃ ma ∈ db.miner_account, ma.name = name ∧ d.miner_account_id = ma.id)
      && decide (d.status = some "verified")

/-- The sum of the amounts of the verified records; a NULL amount adds nothing. -/
def verifiedTotal (db : Tables) (name : String) : ℚ :=
  ((verifiedRecords db name).map fun d => d.reward.getD 0).sum

/-! ## Sample data -/

/-- Renderings that keep the instant and mask the amounts. -/
def sampleFmt : Fmt :=
  { time := fun t => toString t.unixNano
    f2 := fun _ => "#.##"
    f0 := fun d => toString (Int.tdiv d 1000000000) }

/-- One main account with sub-accounts `alice` (heartbeats aged 100 s, 5000 s and 100000 s
at epoch second 1000000, the last machine without a name), `bob` (no machine) and `carol`
(one machine that never reported), and two reward records of `alice`. -/
def sampleTables : Tables :=
  { user := [{ id := 1, email := "m@x.com" }]
    miner_account :=
      [{ id := 10, name := "alice", main_user_id := 1 },
       { id := 11, name := "bob", main_user_id := 1 },
       { id := 12, name := "carol", main_user_id := 1 }]
    machine :=
      [{ id := 1, miner_account_id := 10, created_at := some "2024-01-01", name := some "m1",
         project := some "aleo", last_commit_solution := some 999900 },
       { id := 2, miner_account_id := 10, created_at := some "2024-01-02", name := some "m2",
         project := some "aleo", last_commit_solution := some 995000 },
       { id := 3, miner_account_id := 10, created_at := some "2024-01-03", name := none,
         project := some "aleo", last_commit_solution := some 900000 },
       { id := 4, miner_account_id := 12, created_at := some "2024-01-04", name := some "m4",
         project := some "aleo", last_commit_solution := none }]
    distributor :=
      [{ miner_account_id := 10, created_at := some { unixNano := 5, loc := Location.utc },
         reward := some 10, pay_status := some "paid", status := some "verified" },
       { miner_account_id := 10, created_at := some { unixNano := 7, loc := Location.utc },
         reward := some 5, pay_status := some "pending", status := some "pending" }] }

/-- The sample tables with the ledger reduced to its verified record. -/
def sampleTablesVerifiedOnly : Tables :=
  { sampleTables with
    distributor :=
      [{ miner_account_id := 10, created_at := some { unixNano := 5, loc := Location.utc },
         reward := some 10, pay_status := some "paid", status := some "verified" }] }

/-- A statement with a quote in the name is taken to be rejected by the server. -/
def sampleQuoted : String → Except SqlErr OverviewRow :=
  fun _ => Except.error (SqlErr.other "pq: syntax error")

/-- The sample tables at epoch second 1000000, with a clock that advances one second per
reading. -/
def sampleEnv : Env :=
  tablesEnv sampleTables sampleQuoted (fun _ => 1000000000000)
    (fun k => { unixNano := (1000000 + (k : Int)) * 1000000000, loc := Location.localZone })
    sampleFmt

/-- A store that cannot be reached: every statement fails. -/
def downStore : Store :=
  { subAccounts := fun _ => Except.error "dial tcp 127.0.0.1:5432: connect: connection refused"
    overview := fun _ =>
      Except.error (SqlErr.other "dial tcp 127.0.0.1:5432: connect: connection refused")
    ids := fun _ =>
      Except.error (SqlErr.other "dial tcp 127.0.0.1:5432: connect: connection refused")
    rewardRows := fun _ => Except.error "dial tcp 127.0.0.1:5432: connect: connection refused"
    rewardTotal := fun _ =>
      Except.error (SqlErr.other "dial tcp 127.0.0.1:5432: connect: connection refused")
    machineDetails := fun _ =>
      Except.error "dial tcp 127.0.0.1:5432: connect: connection refused" }

/-- The environment of a request made while the store cannot be reached. -/
def downEnv : Env :=
  { clock := fun k => { unixNano := (1000000 + (k : Int)) * 1000000000, loc := Location.localZone }
    store := fun _ => downStore
    fmt := sampleFmt }

/-- Renderings that mask instants, durations and amounts. -/
def maskFmt : Fmt :=
  { time := fun _ => "T"
    f2 := fun _ => "#.##"
    f0 := fun _ => "D" }

/-- Main account `m@x.com` with sub-accounts `s1` and `s2`, each with one machine whose
last heartbeat is at epoch second 999400. -/
def walkTables : Tables :=
  { user := [{ id := 1, email := "m@x.com" }]
    miner_account :=
      [{ id := 1, name := "s1", main_user_id := 1 },
       { id := 2, name := "s2", main_user_id := 1 }]
    machine :=
      [{ id := 1, miner_account_id := 1, created_at := some "c", name := some "m1",
         project := some "p", last_commit_solution := some 999400 },
       { id := 2, miner_account_id := 2, created_at := some "c", name := some "m2",
         project := some "p", last_commit_solution := some 999400 }]
    distributor := [] }

/-- The walk tables with a clock that reads epoch second 1000000 first and advances one
second per reading. -/
def walkEnv : Env :=
  tablesEnv walkTables sampleQuoted (fun _ => 1000000000000)
    (fun k => { unixNano := (1000000 + (k : Int)) * 1000000000, loc := Location.localZone })
    maskFmt

/-- The report of `s1` without details, on the walk tables. -/
def walkHead1 : String :=
  "<h2>子账户总览信息 - Sub-account Overview for s1(1)</h2><p>主账户名称 - Main Account: m@x.com(1)</p><p>总机器数 - Total Machines: 1</p><p>活跃机器数 - Active Machines: 1</p><p>不活跃机器数 - Inactive Machines: 0</p><p>失效机器数 - Failed Machines: 0</p><p>无效机器数 - Invalid Machines: 0</p><h3>收益明细 - Reward Records</h3><p><strong>总收益 (已验证) - Total Verified Reward: #.##</strong></p><table border=\"1\" cellpadding=\"5\" cellspacing=\"0\"><tr><th>日期 (Created At)</th><th>奖励 (Reward)</th><th>支付状态 (Pay Status)</th></tr></table>"

/-- The report of `s2` without details, on the walk tables. -/
def walkHead2 : String :=
  "<h2>子账户总览信息 - Sub-account Overview for s2(2)</h2><p>主账户名称 - Main Account: m@x.com(1)</p><p>总机器数 - Total Machines: 1</p><p>活跃机器数 - Active Machines: 1</p><p>不活跃机器数 - Inactive Machines: 0</p><p>失效机器数 - Failed Machines: 0</p><p>无效机器数 - Invalid Machines: 0</p><h3>收益明细 - Reward Records</h3><p><strong>总收益 (已验证) - Total Verified Reward: #.##</strong></p><table border=\"1\" cellpadding=\"5\" cellspacing=\"0\"><tr><th>日期 (Created At)</th><th>奖励 (Reward)</th><th>支付状态 (Pay Status)</th></tr></table>"

/-- The state at the start of a request. -/
def Sys.init : Sys := { reads := 0, log := [] }

/-! ## Lemmas on durations -/

theorem Duration.Seconds_eq (d : Duration) : Duration.Seconds d = d := by
  unfold Duration.Seconds Second
  have h := Int.tdiv_add_tmod d 1000000000
  simp only []
  linarith

theorem secondsLe_sub_iff (t u : Time) (c : Int) (hc0 : -9223372036 ≤ c) (hc1 : c ≤ 9223372036) :
    secondsLe (Duration.Seconds (t.Sub u)) c = true ↔ t.unixNano - u.unixNano ≤ c * 1000000000 := by
  rw [Duration.Seconds_eq]
  unfold secondsLe Time.Sub minDuration maxDuration
  simp only [decide_eq_true_eq]
  split_ifs with h1 h2
  · constructor <;> intro h <;> omega
  · constructor <;> intro h <;> omega
  · exact Iff.rfl

theorem Time.Unix_of_wrapped (v : Int) (h0 : 9223371974719179007 < v)
    (h1 : v ≤ 9223372036854775807) :
    (Time.Unix v).unixNano = (v - 18446744073709551616) * 1000000000 := by
  unfold Time.Unix unixToInternal wrapInt64
  simp only []
  omega

theorem statusOf_valid_at (ts : Int) (now : Time) :
    statusOf { Int64 := ts, Valid := true } now =
      if now.unixNano - (Time.Unix ts).unixNano ≤ 600 * 1000000000 then statusActive
      else if now.unixNano - (Time.Unix ts).unixNano ≤ 86400 * 1000000000 then statusInactive
      else statusFailed := by
  have h1 := secondsLe_sub_iff now ((Time.Unix ts).In Location.shanghai) 600 (by decide) (by decide)
  have h2 := secondsLe_sub_iff now ((Time.Unix ts).In Location.shanghai) 86400 (by decide) (by decide)
  have hu : ((Time.Unix ts).In Location.shanghai).unixNano = (Time.Unix ts).unixNano := rfl
  rw [hu] at h1 h2
  unfold statusOf ConvertToShanghaiTime ActiveThreshold InactiveThreshold
  simp only [Bool.not_true, Bool.false_eq_true, if_false]
  by_cases ha : now.unixNano - (Time.Unix ts).unixNano ≤ 600 * 1000000000
  · rw [if_pos (h1.mpr ha), if_pos ha]
  · have ha' : ¬ secondsLe (Duration.Seconds (now.Sub ((Time.Unix ts).In Location.shanghai))) 600
        = true := fun h => ha (h1.mp h)
    rw [if_neg ha', if_neg ha]
    by_cases hb : now.unixNano - (Time.Unix ts).unixNano ≤ 86400 * 1000000000
    · rw [if_pos (h2.mpr hb), if_pos hb]
    · have hb' : ¬ secondsLe (Duration.Seconds (now.Sub ((Time.Unix ts).In Location.shanghai)))
          86400 = true := fun h => hb (h2.mp h)
      rw [if_neg hb', if_neg hb]

theorem statusOf_three (ts : Int) (now : Time) :
    statusOf { Int64 := ts, Valid := true } now = statusActive
    ∨ statusOf { Int64 := ts, Valid := true } now = statusInactive
    ∨ statusOf { Int64 := ts, Valid := true } now = statusFailed := by
  rw [statusOf_valid_at]
  split_ifs
  · left; rfl
  · right; left; rfl
  · right; right; rfl

theorem statusOf_wrapped_failed (v : Int) (now : Time) (h0 : 9223371974719179007 < v)
    (h1 : v ≤ 9223372036854775807) (hnow : 0 ≤ now.unixNano) :
    statusOf { Int64 := v, Valid := true } now = statusFailed := by
  rw [statusOf_valid_at, Time.Unix_of_wrapped v h0 h1,
    if_neg (by omega), if_neg (by omega)]

/-! ## C1: status classification -/

theorem statusOf_invalid (v : Int) (now : Time) :
    statusOf { Int64 := v, Valid := false } now = statusInvalid := by
  simp [statusOf, ConvertToShanghaiTime]

theorem coalesce_sqlSum_some {β : Type} (g : List β) (f : β → Int) :
    coalesce (sqlSum (g.map fun m => some (f m))) 0 = (g.map f).sum := by
  have h : (g.map fun m => some (f m)).filterMap id = g.map f := by
    induction g with
    | nil => rfl
    | cons a t ih => simp [List.filterMap_cons, ih]
  unfold sqlSum coalesce
  rw [h]
  cases hg : g.map f with
  | nil => rfl
  | cons v vs => rfl

theorem caseWhen_decide (p : Prop) [Decidable p] :
    caseWhen (some (decide p)) = if p then 1 else 0 := by
  unfold caseWhen
  by_cases h : p <;> simp [h]

theorem sqlCount_ids (ms : List MachineRec) :
    sqlCount ((ms.map some).map fun m => m.map fun r => r.id) = (ms.length : Int) := by
  unfold sqlCount
  rw [List.map_map]
  have : ((ms.map ((fun m : Option MachineRec => m.map fun r => r.id) ∘ some)).filter
      Option.isSome) = ms.map ((fun m : Option MachineRec => m.map fun r => r.id) ∘ some) := by
    rw [List.filter_eq_self]
    intro a ha
    rw [List.mem_map] at ha
    obtain ⟨m, _, rfl⟩ := ha
    rfl
  rw [this, List.length_map]

theorem sqlBuckets_row (lcs : Option Int) (nowMicros : Int) :
    caseWhen (sqlGe lcs (epochMinus nowMicros 600))
      + caseWhen (sqlAnd (sqlLt lcs (epochMinus nowMicros 600))
          (sqlGe lcs (epochMinus nowMicros 86400)))
      + caseWhen (sqlLt lcs (epochMinus nowMicros 86400))
      + caseWhen (some lcs.isNone) = 1 := by
  cases lcs with
  | none => rfl
  | some v =>
    have hand : ∀ p q : Prop, ∀ [Decidable p] [Decidable q],
        sqlAnd (some (decide p)) (some (decide q)) = some (decide (p ∧ q)) := by
      intro p q _ _
      by_cases hp : p <;> by_cases hq : q <;> simp [sqlAnd, hp, hq]
    have hinv : caseWhen (some (some v).isNone) = 0 := rfl
    simp only [sqlGe, sqlLt, epochMinus, Option.map_some', hand, caseWhen_decide, hinv]
    split_ifs <;> omega

theorem overviewAggregate_adds_up (nowMicros : Int) (email : String) (ms : List MachineRec) :
    (overviewAggregate nowMicros email (ms.map some)).total_machines = (ms.length : Int)
    ∧ (overviewAggregate nowMicros email (ms.map some)).active_machines
        + (overviewAggregate nowMicros email (ms.map some)).inactive_machines
        + (overviewAggregate nowMicros email (ms.map some)).failed_machines
        + (overviewAggregate nowMicros email (ms.map some)).invalid_machines = (ms.length : Int) := by
  refine ⟨sqlCount_ids ms, ?_⟩
  unfold overviewAggregate
  simp only [coalesce_sqlSum_some]
  induction ms with
  | nil => rfl
  | cons m t ih =>
    simp only [List.map_cons, List.sum_cons, List.length_cons, Option.some_bind]
    have hrow := sqlBuckets_row m.last_commit_solution nowMicros
    push_cast
    omega

theorem overviewAggregate_nulls (nowMicros : Int) (email : String) (g : List (Option MachineRec))
    (hg : ∀ x ∈ g, x = none) :
    (overviewAggregate nowMicros email g).total_machines = 0
    ∧ (overviewAggregate nowMicros email g).active_machines = 0
    ∧ (overviewAggregate nowMicros email g).inactive_machines = 0
    ∧ (overviewAggregate nowMicros email g).failed_machines = 0 := by
  unfold overviewAggregate
  simp only [coalesce_sqlSum_some]
  refine ⟨?_, ?_, ?_, ?_⟩
  · unfold sqlCount
    have : (g.map fun m => m.map fun r => r.id).filter Option.isSome = [] := by
      rw [List.filter_eq_nil_iff]
      intro a ha
      rw [List.mem_map] at ha
      obtain ⟨m, hm, rfl⟩ := ha
      rw [hg m hm]; simp
    rw [this]; rfl
  all_goals
    apply List.sum_eq_zero
    intro x hx
    rw [List.mem_map] at hx
    obtain ⟨m, hm, rfl⟩ := hx
    rw [hg m hm]
    rfl

theorem classifiedAs_total (now : Time) (ms : List MachineRec) :
    classifiedAs now statusActive ms + classifiedAs now statusInactive ms
      + classifiedAs now statusFailed ms + classifiedAs now statusInvalid ms = (ms.length : Int) := by
  unfold classifiedAs
  induction ms with
  | nil => rfl
  | cons m t ih =>
    have hs : statusOf (nullInt64Of m.last_commit_solution) now = statusInvalid
        ∨ statusOf (nullInt64Of m.last_commit_solution) now = statusActive
        ∨ statusOf (nullInt64Of m.last_commit_solution) now = statusInactive
        ∨ statusOf (nullInt64Of m.last_commit_solution) now = statusFailed := by
      cases m.last_commit_solution with
      | none => left; exact statusOf_invalid 0 now
      | some v =>
        rcases statusOf_three v now with hs | hs | hs
        · right; left; exact hs
        · right; right; left; exact hs
        · right; right; right; exact hs
    have hd : statusActive ≠ statusInactive ∧ statusActive ≠ statusFailed
        ∧ statusActive ≠ statusInvalid ∧ statusInactive ≠ statusFailed
        ∧ statusInactive ≠ statusInvalid ∧ statusFailed ≠ statusInvalid := by decide
    obtain ⟨d1, d2, d3, d4, d5, d6⟩ := hd
    rcases hs with hs | hs | hs | hs <;>
      simp only [List.filter_cons, hs, decide_True, decide_False, if_true, if_false,
        List.length_cons, d1, d2, d3, d4, d5, d6, d1.symm, d2.symm, d3.symm, d4.symm, d5.symm,
        d6.symm, Bool.false_eq_true] <;>
      push_cast <;> omega

/-! ## The overview statement over the tables -/

theorem leftJoinMachine_cases (db : Tables) (ma : MinerAccountRec) :
    (db.machinesOf ma = [] ∧ leftJoinMachine db ma = [none])
    ∨ (db.machinesOf ma ≠ [] ∧ leftJoinMachine db ma = (db.machinesOf ma).map some) := by
  unfold leftJoinMachine Tables.machinesOf
  cases db.machine.filter (fun m => decide (m.miner_account_id = ma.id)) with
  | nil => left; exact ⟨rfl, rfl⟩
  | cons m ms => right; exact ⟨List.cons_ne_nil _ _, rfl⟩

theorem overviewJoin_of_absent (db : Tables) (name : String)
    (h : db.miner_account.filter (fun a => decide (a.name = name)) = []) :
    overviewJoin db name = [] := by
  unfold overviewJoin
  rw [h]
  rfl

theorem overviewJoin_snd_mem (db : Tables) (name : String) (ma : MinerAccountRec)
    (hma : db.IsSubAccount name ma) (r : UserRec × Option MachineRec)
    (hr : r ∈ overviewJoin db name) : r.2 ∈ leftJoinMachine db ma := by
  unfold Tables.IsSubAccount at hma
  unfold overviewJoin at hr
  rw [hma] at hr
  simp only [List.flatMap_cons, List.flatMap_nil, List.append_nil, List.mem_flatMap,
    List.mem_map] at hr
  obtain ⟨m, hm, v, _, rfl⟩ := hr
  exact hm

theorem getOverview_fst (env : Env) (s : Sys) (name : String) :
    (getOverview env s name).1 =
      match (env.cur s).overview name with
      | Except.error SqlErr.ErrNoRows =>
        Except.ok { MainAccountName := "", TotalMachines := 0, ActiveMachines := 0,
                    InactiveMachines := 0, FailedMachines := 0, InvalidMachines := 0,
                    Machines := [] }
      | Except.error err => Except.error err
      | Except.ok row =>
        Except.ok { MainAccountName := row.main_account_name, TotalMachines := row.total_machines,
                    ActiveMachines := row.active_machines,
                    InactiveMachines := row.inactive_machines,
                    FailedMachines := row.failed_machines,
                    InvalidMachines := if row.total_machines = 0 then 0 else row.invalid_machines,
                    Machines := [] } := by
  unfold getOverview
  cases h : (env.cur s).overview name with
  | error e =>
    cases e with
    | ErrNoRows => rfl
    | other msg => rfl
  | ok row =>
    simp only []
    split_ifs with h0
    · rfl
    · rfl

theorem getOverview_snd (env : Env) (s : Sys) (name : String) :
    (getOverview env s name).2 = s.exec (Query.overview name) := by
  unfold getOverview
  cases h : (env.cur s).overview name with
  | error e =>
    cases e with
    | ErrNoRows => rfl
    | other msg => rfl
  | ok row =>
    simp only []
    split_ifs <;> rfl

theorem cur_overview_tables (db : Tables) (quoted : String → Except SqlErr OverviewRow)
    (sqlNow : Nat → Int) (clock : Nat → Time) (fmt : Fmt) (s : Sys) (name : String)
    (hplain : PlainName name) :
    ((tablesEnv db quoted sqlNow clock fmt).cur s).overview name
      = overviewQuery db (sqlNow s.log.length) name := by
  have hq : quoteChar ∉ name.data := hplain
  simp [Env.cur, tablesEnv, tablesStore, hq]

/-! ## C2: the counts of an overview add up -/

theorem eq_map_some_of_all_some {β : Type} (g : List (Option β)) (h : ∀ x ∈ g, ∃ m, x = some m) :
    g = (g.filterMap id).map some := by
  induction g with
  | nil => rfl
  | cons a t ih =>
    obtain ⟨m, rfl⟩ := h a (List.mem_cons_self _ _)
    have ht := ih (fun x hx => h x (List.mem_cons_of_mem _ hx))
    simp only [List.filterMap_cons, id, List.map_cons]
    rw [← ht]

theorem overviewQuery_shape (db : Tables) (nowMicros : Int) (name : String)
    (huniq : db.NameUnique name) :
    overviewQuery db nowMicros name = Except.error SqlErr.ErrNoRows
    ∨ ∃ email g, overviewQuery db nowMicros name = Except.ok (overviewAggregate nowMicros email g)
        ∧ ((∀ x ∈ g, x = none) ∨ (∀ x ∈ g, ∃ m, x = some m)) := by
  unfold Tables.NameUnique at huniq
  cases hf : db.miner_account.filter (fun a => decide (a.name = name)) with
  | nil =>
    left
    unfold overviewQuery
    rw [overviewJoin_of_absent db name hf]
  | cons ma rest =>
    cases rest with
    | cons b rest2 => rw [hf] at huniq; simp at huniq
    | nil =>
      cases hj : overviewJoin db name with
      | nil => left; unfold overviewQuery; rw [hj]
      | cons r rs =>
        right
        refine ⟨r.1.email,
          (((r :: rs).filter fun q => decide (q.1.email = r.1.email)).map fun q => q.2), ?_, ?_⟩
        · unfold overviewQuery
          rw [hj]
        · have hmem : ∀ x ∈ (((r :: rs).filter fun q => decide (q.1.email = r.1.email)).map
              fun q => q.2), x ∈ leftJoinMachine db ma := by
            intro x hx
            rw [List.mem_map] at hx
            obtain ⟨q, hq, rfl⟩ := hx
            have hq' : q ∈ overviewJoin db name := by
              rw [hj]; exact List.mem_of_mem_filter hq
            exact overviewJoin_snd_mem db name ma hf q hq'
          rcases leftJoinMachine_cases db ma with ⟨_, hl⟩ | ⟨_, hl⟩
          · left
            intro x hx
            have := hmem x hx
            rw [hl] at this
            simpa using this
          · right
            intro x hx
            have := hmem x hx
            rw [hl, List.mem_map] at this
            obtain ⟨m, _, rfl⟩ := this
            exact ⟨m, rfl⟩

/-- C2: for a sub-account name that belongs to at most one sub-account, whatever machines
it owns and whatever their heartbeats, the Overview returned by `getOverview` has
Active + Inactive + Failed + Invalid = Total when Total > 0, and all four counts 0 when
Total = 0. -/
theorem getOverview_counts_add_up (db : Tables) (quoted : String → Except SqlErr OverviewRow)
    (sqlNow : Nat → Int) (clock : Nat → Time) (fmt : Fmt) (s : Sys) (name : String)
    (hplain : PlainName name) (huniq : db.NameUnique name) :
    ∃ ov, (getOverview (tablesEnv db quoted sqlNow clock fmt) s name).1 = Except.ok ov
      ∧ (0 < ov.TotalMachines →
          ov.ActiveMachines + ov.InactiveMachines + ov.FailedMachines + ov.InvalidMachines
            = ov.TotalMachines)
      ∧ (ov.TotalMachines = 0 →
          ov.ActiveMachines = 0 ∧ ov.InactiveMachines = 0 ∧ ov.FailedMachines = 0
            ∧ ov.InvalidMachines = 0) := by
  rw [getOverview_fst, cur_overview_tables db quoted sqlNow clock fmt s name hplain]
  rcases overviewQuery_shape db (sqlNow s.log.length) name huniq with h | ⟨email, g, h, hg⟩
  · rw [h]
    exact ⟨_, rfl, fun h0 => absurd h0 (by decide), fun _ => ⟨rfl, rfl, rfl, rfl⟩⟩
  · rw [h]
    refine ⟨_, rfl, ?_, ?_⟩
    · rcases hg with hg | hg
      · obtain ⟨h0, _, _, _⟩ := overviewAggregate_nulls (sqlNow s.log.length) email g hg
        intro hpos
        simp only [h0] at hpos
        exact absurd hpos (by decide)
      · intro hpos
        have hgm := eq_map_some_of_all_some g hg
        obtain ⟨ht, hsum⟩ := overviewAggregate_adds_up (sqlNow s.log.length) email (g.filterMap id)
        rw [← hgm] at ht hsum
        simp only [] at hpos ⊢
        rw [if_neg (by omega), ht]
        exact hsum
    · rcases hg with hg | hg
      · obtain ⟨_, h1, h2, h3⟩ := overviewAggregate_nulls (sqlNow s.log.length) email g hg
        intro h0
        simp only [] at h0 ⊢
        exact ⟨h1, h2, h3, by rw [if_pos h0]⟩
      · intro h0
        have hgm := eq_map_some_of_all_some g hg
        obtain ⟨ht, _⟩ := overviewAggregate_adds_up (sqlNow s.log.length) email (g.filterMap id)
        rw [← hgm] at ht
        simp only [] at h0
        rw [ht] at h0
        have hnil : g.filterMap id = [] := by
          apply List.eq_nil_of_length_eq_zero
          exact_mod_cast h0
        have hg0 : g = [] := by rw [hgm, hnil]; rfl
        subst hg0
        exact ⟨rfl, rfl, rfl, rfl⟩

theorem getOverview_counts_add_up_witness :
    PlainName "carol" ∧ sampleTables.NameUnique "carol"
    ∧ ∃ ov, (getOverview sampleEnv Sys.init "carol").1 = Except.ok ov
      ∧ (0 < ov.TotalMachines →
          ov.ActiveMachines + ov.InactiveMachines + ov.FailedMachines + ov.InvalidMachines
            = ov.TotalMachines)
      ∧ (ov.TotalMachines = 0 →
          ov.ActiveMachines = 0 ∧ ov.InactiveMachines = 0 ∧ ov.FailedMachines = 0
            ∧ ov.InvalidMachines = 0) :=
  ⟨by decide, by decide,
    getOverview_counts_add_up sampleTables sampleQuoted (fun _ => 1000000000000)
      (fun k => { unixNano := (1000000 + (k : Int)) * 1000000000, loc := Location.localZone })
      sampleFmt Sys.init "carol" (by decide) (by decide)⟩

theorem coalesce_sqlSum_getD (l : List (Option ℚ)) :
    coalesce (sqlSum l) 0 = (l.map fun r => r.getD 0).sum := by
  have h : ∀ l : List (Option ℚ), (l.filterMap id).sum = (l.map fun r => r.getD 0).sum := by
    intro l
    induction l with
    | nil => rfl
    | cons a t ih =>
      cases a with
      | none => simp [List.filterMap_cons, ih]
      | some v => simp [List.filterMap_cons, ih]
  unfold sqlSum coalesce
  rw [← h]
  cases l.filterMap id with
  | nil => rfl
  | cons v vs => rfl

theorem rewardTotalQuery_eq (db : Tables) (name : String) (huniq : db.NameUnique name) :
    rewardTotalQuery db name = Except.ok (verifiedTotal db name) := by
  unfold Tables.NameUnique at huniq
  unfold rewardTotalQuery subAccountIdSubquery verifiedTotal verifiedRecords
  cases hf : db.miner_account.filter (fun a => decide (a.name = name)) with
  | nil =>
    simp only [coalesce_sqlSum_getD]
    have hno : ∀ a ∈ db.miner_account, ¬ a.name = name := by
      intro a ha hn
      have : a ∈ db.miner_account.filter (fun a => decide (a.name = name)) :=
        List.mem_filter.mpr ⟨ha, by simpa using hn⟩
      rw [hf] at this
      exact absurd this (List.not_mem_nil _)
    have h1 : (db.distributor.filter fun d =>
        decide (some d.miner_account_id = (none : Option Int)) && decide (d.status = some "verified")) = [] := by
      rw [List.filter_eq_nil_iff]; intro d _; simp
    have h2 : (db.distributor.filter fun d =>
        decide (∃ ma ∈ db.miner_account, ma.name = name ∧ d.miner_account_id = ma.id)
          && decide (d.status = some "verified")) = [] := by
      rw [List.filter_eq_nil_iff]
      intro d _
      have : ¬ ∃ ma ∈ db.miner_account, ma.name = name ∧ d.miner_account_id = ma.id := by
        rintro ⟨ma, hma, hn, _⟩
        exact hno ma hma hn
      simp [this]
    rw [h1, h2]
    rfl
  | cons ma rest =>
    cases rest with
    | cons b rest2 => rw [hf] at huniq; simp at huniq
    | nil =>
      simp only [coalesce_sqlSum_getD]
      have hiff : ∀ d : DistributorRec,
          (∃ a ∈ db.miner_account, a.name = name ∧ d.miner_account_id = a.id)
            ↔ d.miner_account_id = ma.id := by
        intro d
        have hmem : ∀ a, a ∈ db.miner_account ∧ a.name = name ↔ a = ma := by
          intro a
          have := @List.mem_filter _ (fun a : MinerAccountRec => decide (a.name = name)) db.miner_account a
          rw [hf] at this
          simp only [List.mem_singleton, decide_eq_true_eq] at this
          exact this.symm
        constructor
        · rintro ⟨a, ha, hn, hid⟩
          rw [(hmem a).mp ⟨ha, hn⟩] at hid
          exact hid
        · intro hid
          obtain ⟨ha, hn⟩ := (hmem ma).mpr rfl
          exact ⟨ma, ha, hn, hid⟩
      have hfun : (fun d : DistributorRec =>
          decide (some d.miner_account_id = some ma.id) && decide (d.status = some "verified"))
          = fun d : DistributorRec =>
            decide (∃ a ∈ db.miner_account, a.name = name ∧ d.miner_account_id = a.id)
              && decide (d.status = some "verified") := by
        funext d
        have hdec : decide (some d.miner_account_id = some ma.id)
            = decide (∃ a ∈ db.miner_account, a.name = name ∧ d.miner_account_id = a.id) := by
          rw [decide_eq_decide, Option.some.injEq]
          exact (hiff d).symm
        rw [hdec]
      rw [hfun, List.map_map]
      rfl

theorem rewardRowsQuery_ok (db : Tables) (name : String) (huniq : db.NameUnique name) :
    ∃ rows, rewardRowsQuery db name = Except.ok rows := by
  unfold Tables.NameUnique at huniq
  unfold rewardRowsQuery subAccountIdSubquery
  cases hf : db.miner_account.filter (fun a => decide (a.name = name)) with
  | nil => exact ⟨_, rfl⟩
  | cons ma rest =>
    cases rest with
    | cons b rest2 => rw [hf] at huniq; simp at huniq
    | nil => exact ⟨_, rfl⟩

theorem verifiedRecords_of_absent (db : Tables) (name : String)
    (h : db.miner_account.filter (fun a => decide (a.name = name)) = []) :
    verifiedRecords db name = [] := by
  unfold verifiedRecords
  rw [List.filter_eq_nil_iff]
  intro d _
  have : ¬ ∃ ma ∈ db.miner_account, ma.name = name ∧ d.miner_account_id = ma.id := by
    rintro ⟨ma, hma, hn, _⟩
    have hmem : ma ∈ db.miner_account.filter (fun a => decide (a.name = name)) :=
      List.mem_filter.mpr ⟨hma, by simpa using hn⟩
    rw [h] at hmem
    exact absurd hmem (List.not_mem_nil _)
  simp [this]

theorem showSubAccountRewards_tables (db : Tables) (quoted : String → Except SqlErr OverviewRow)
    (sqlNow : Nat → Int) (clock : Nat → Time) (fmt : Fmt) (s : Sys) (name : String)
    (rows : List RewardRow) (total : ℚ) (hr : rewardRowsQuery db name = Except.ok rows)
    (ht : rewardTotalQuery db name = Except.ok total) :
    showSubAccountRewards (tablesEnv db quoted sqlNow clock fmt) s name
      = (rewardsHtml fmt total rows,
          (s.exec (Query.rewardRows name)).exec (Query.rewardTotal name)) := by
  unfold showSubAccountRewards
  simp only [Env.cur, tablesEnv, tablesStore, hr, ht]

/-- C8: for a name that belongs to at most one sub-account, the total verified reward that
`showSubAccountRewards` reads and renders is the sum of the amounts of exactly the reward
records of that sub-account whose legacy status field is `verified`: it is 0 when there
are none and when the name matches nothing, and two ledgers with the same verified records
give the same total, whatever their other records. -/
theorem showSubAccountRewards_total_is_verified_sum (db db2 : Tables)
    (quoted : String → Except SqlErr OverviewRow) (sqlNow : Nat → Int) (clock : Nat → Time)
    (fmt : Fmt) (s : Sys) (name : String) (huniq : db.NameUnique name)
    (huniq2 : db2.NameUnique name) :
    (∃ rows, rewardRowsQuery db name = Except.ok rows
      ∧ (showSubAccountRewards (tablesEnv db quoted sqlNow clock fmt) s name).1
          = rewardsHtml fmt (verifiedTotal db name) rows)
    ∧ (verifiedRecords db name = [] → verifiedTotal db name = 0)
    ∧ (db.miner_account.filter (fun a => decide (a.name = name)) = [] → verifiedTotal db name = 0)
    ∧ (verifiedRecords db2 name = verifiedRecords db name →
        rewardTotalQuery db2 name = rewardTotalQuery db name) := by
  refine ⟨?_, ?_, ?_, ?_⟩
  · obtain ⟨rows, hr⟩ := rewardRowsQuery_ok db name huniq
    refine ⟨rows, hr, ?_⟩
    rw [showSubAccountRewards_tables db quoted sqlNow clock fmt s name rows (verifiedTotal db name)
      hr (rewardTotalQuery_eq db name huniq)]
  · intro h
    unfold verifiedTotal
    rw [h]
    rfl
  · intro h
    unfold verifiedTotal
    rw [verifiedRecords_of_absent db name h]
    rfl
  · intro h
    rw [rewardTotalQuery_eq db name huniq, rewardTotalQuery_eq db2 name huniq2]
    unfold verifiedTotal
    rw [h]

theorem verifiedRecords_sample :
    verifiedRecords sampleTables "alice" =
      [{ miner_account_id := 10, created_at := some { unixNano := 5, loc := Location.utc },
         reward := some 10, pay_status := some "paid", status := some "verified" }] := by
  decide

theorem verifiedTotal_sample : verifiedTotal sampleTables "alice" = 10 := by
  unfold verifiedTotal
  rw [verifiedRecords_sample]
  simp

theorem showSubAccountRewards_total_is_verified_sum_witness :
    sampleTables.NameUnique "alice" ∧ sampleTablesVerifiedOnly.NameUnique "alice"
    ∧ (∃ rows, rewardRowsQuery sampleTables "alice" = Except.ok rows
      ∧ (showSubAccountRewards sampleEnv Sys.init "alice").1
          = rewardsHtml sampleFmt (verifiedTotal sampleTables "alice") rows)
    ∧ (verifiedRecords sampleTables "alice" = [] → verifiedTotal sampleTables "alice" = 0)
    ∧ (sampleTables.miner_account.filter (fun a => decide (a.name = "alice")) = [] →
        verifiedTotal sampleTables "alice" = 0)
    ∧ (verifiedRecords sampleTablesVerifiedOnly "alice" = verifiedRecords sampleTables "alice" →
        rewardTotalQuery sampleTablesVerifiedOnly "alice" = rewardTotalQuery sampleTables "alice") :=
  ⟨by decide, by decide,
    showSubAccountRewards_total_is_verified_sum sampleTables sampleTablesVerifiedOnly sampleQuoted
      (fun _ => 1000000000000)
      (fun k => { unixNano := (1000000 + (k : Int)) * 1000000000, loc := Location.localZone })
      sampleFmt Sys.init "alice" (by decide) (by decide)⟩

/-! ## Lemmas on `runOnce` -/

theorem getOverview_eq (env : Env) (s : Sys) (name : String) :
    getOverview env s name = ((getOverview env s name).1, s.exec (Query.overview name)) := by
  rw [← getOverview_snd]

theorem showSubAccountRewards_snd (env : Env) (s : Sys) (name : String) :
    ∃ l, (showSubAccountRewards env s name).2.log = s.log ++ l
      ∧ (showSubAccountRewards env s name).2.reads = s.reads := by
  unfold showSubAccountRewards
  cases (env.cur s).rewardRows name with
  | error e => exact ⟨[Query.rewardRows name], rfl, rfl⟩
  | ok rows =>
    simp only []
    cases (env.cur (s.exec (Query.rewardRows name))).rewardTotal name with
    | error e =>
      exact ⟨[Query.rewardRows name, Query.rewardTotal name], by simp [Sys.exec], rfl⟩
    | ok t =>
      exact ⟨[Query.rewardRows name, Query.rewardTotal name], by simp [Sys.exec], rfl⟩

theorem runOnceAt_state (env : Env) (now : Time) (s : Sys) (name : String) (sd : Bool)
    (r : String) (s1 : Sys) (h : runOnceAt env now s name sd = some (r, s1)) :
    s1.reads = s.reads ∧ ∃ l, s1.log = s.log ++ Query.overview name :: l := by
  unfold runOnceAt at h
  rw [getOverview_eq] at h
  cases hov : (getOverview env s name).1 with
  | error e =>
    rw [hov] at h
    simp only [Option.some.injEq, Prod.mk.injEq] at h
    obtain ⟨_, rfl⟩ := h
    exact ⟨rfl, [], rfl⟩
  | ok ov =>
    rw [hov] at h
    simp only [] at h
    cases hid : (env.cur (s.exec (Query.overview name))).ids name with
    | error e => rw [hid] at h; exact absurd h (by simp)
    | ok ids =>
      obtain ⟨a, b, c⟩ := ids
      rw [hid] at h
      simp only [] at h
      obtain ⟨l, hl, hr⟩ := showSubAccountRewards_snd env
        ((s.exec (Query.overview name)).exec (Query.ids name)) name
      cases sd with
      | false =>
        simp only [Bool.false_eq_true, if_false, Option.some.injEq, Prod.mk.injEq] at h
        obtain ⟨_, rfl⟩ := h
        exact ⟨hr, Query.ids name :: l, by rw [hl]; simp [Sys.exec]⟩
      | true =>
        simp only [if_true] at h
        cases hm : (env.cur (showSubAccountRewards env
            ((s.exec (Query.overview name)).exec (Query.ids name)) name).2).machineDetails name with
        | error e => rw [hm] at h; exact absurd h (by simp)
        | ok rows =>
          rw [hm] at h
          simp only [Option.some.injEq, Prod.mk.injEq] at h
          obtain ⟨_, rfl⟩ := h
          refine ⟨hr, Query.ids name :: (l ++ [Query.machineDetails name]), ?_⟩
          show (showSubAccountRewards env ((s.exec (Query.overview name)).exec (Query.ids name))
            name).2.log ++ [Query.machineDetails name] = _
          rw [hl]
          simp [Sys.exec]

theorem runOnce_state (env : Env) (s : Sys) (name : String) (sd : Bool)
    (r : String) (s1 : Sys) (h : runOnce env s name sd = some (r, s1)) :
    s1.reads = s.reads + 1 ∧ ∃ l, s1.log = s.log ++ Query.overview name :: l := by
  unfold runOnce timeNow at h
  exact runOnceAt_state env _ _ name sd r s1 h

theorem walkRows_state (env : Env) (sd : Bool) (rows : List (Option String)) :
    ∀ (res : String) (s : Sys) (r : String) (s1 : Sys),
      walkRows env sd rows res s = some (r, s1) →
      s1.reads = s.reads + rows.length ∧ ∃ l, s1.log = s.log ++ l := by
  induction rows with
  | nil =>
    intro res s r s1 h
    simp only [walkRows, Option.some.injEq, Prod.mk.injEq] at h
    obtain ⟨_, rfl⟩ := h
    exact ⟨rfl, [], by simp⟩
  | cons row rows ih =>
    intro res s r s1 h
    cases row with
    | none => simp [walkRows] at h
    | some n =>
      simp only [walkRows] at h
      cases hr : runOnce env s n sd with
      | none => rw [hr] at h; exact absurd h (by simp)
      | some p =>
        obtain ⟨r0, s0⟩ := p
        rw [hr] at h
        simp only [] at h
        obtain ⟨h1, l1, hl1⟩ := runOnce_state env s n sd r0 s0 hr
        obtain ⟨h2, l2, hl2⟩ := ih _ _ _ _ h
        refine ⟨?_, Query.overview n :: l1 ++ l2, ?_⟩
        · rw [h2, h1, List.length_cons]; omega
        · rw [hl2, hl1]; simp

theorem runForMainAccount_state (env : Env) (s : Sys) (name : String) (sd : Bool)
    (r : String) (s1 : Sys) (h : runForMainAccount env s name sd = some (r, s1)) :
    ∃ l, s1.log = s.log ++ Query.subAccounts name :: l := by
  unfold runForMainAccount at h
  cases hq : (env.cur s).subAccounts name with
  | error e => rw [hq] at h; exact absurd h (by simp)
  | ok rows =>
    rw [hq] at h
    simp only [] at h
    obtain ⟨_, l, hl⟩ := walkRows_state env sd rows _ _ _ _ h
    exact ⟨l, by rw [hl]; simp [Sys.exec]⟩

/-! ## C7: empty names are rejected before any read -/

/-- C7: both handlers answer an empty account name with the bad-request reply and leave the
state as it was: no statement is logged and the clock is not read, whereas every run of
`runForMainAccount` logs its statement and every run of `runOnce` reads the clock.  A
non-empty name is never answered with the bad-request reply: a reply to it has status 200. -/
theorem empty_name_rejected_before_any_read (env : Env) (s : Sys) (name sd : String)
    (hne : name ≠ "") :
    postMainAccount env s "" sd
        = some ({ code := StatusBadRequest, body := [("error", "Invalid main account")] }, s)
    ∧ postSubAccount env s "" sd
        = some ({ code := StatusBadRequest, body := [("error", "Invalid sub-account")] }, s)
    ∧ (∀ n d r s1, runForMainAccount env s n d = some (r, s1) → s.log.length < s1.log.length)
    ∧ (∀ n d r s1, runOnce env s n d = some (r, s1) →
        s1.reads = s.reads + 1 ∧ s.log.length < s1.log.length)
    ∧ (∀ resp s1, postMainAccount env s name sd = some (resp, s1) → resp.code = StatusOK)
    ∧ (∀ resp s1, postSubAccount env s name sd = some (resp, s1) → resp.code = StatusOK) := by
  refine ⟨?_, ?_, ?_, ?_, ?_, ?_⟩
  · simp [postMainAccount]
  · simp [postSubAccount]
  · intro n d r s1 h
    obtain ⟨l, hl⟩ := runForMainAccount_state env s n d r s1 h
    rw [hl]; simp
  · intro n d r s1 h
    obtain ⟨h1, l, hl⟩ := runOnce_state env s n d r s1 h
    exact ⟨h1, by rw [hl]; simp⟩
  · intro resp s1 h
    unfold postMainAccount at h
    simp only [ne_eq, hne, not_false_eq_true, if_true] at h
    cases hr : runForMainAccount env s name (sd == "true") with
    | none => rw [hr] at h; exact absurd h (by simp)
    | some p =>
      rw [hr] at h
      simp only [Option.some.injEq, Prod.mk.injEq] at h
      rw [← h.1]
  · intro resp s1 h
    unfold postSubAccount at h
    simp only [ne_eq, hne, not_false_eq_true, if_true] at h
    cases hr : runOnce env s name (sd == "true") with
    | none => rw [hr] at h; exact absurd h (by simp)
    | some p =>
      rw [hr] at h
      simp only [Option.some.injEq, Prod.mk.injEq] at h
      rw [← h.1]

theorem empty_name_rejected_before_any_read_witness :
    "alice" ≠ ""
    ∧ postMainAccount sampleEnv Sys.init "" "true"
        = some ({ code := StatusBadRequest, body := [("error", "Invalid main account")] }, Sys.init)
    ∧ postSubAccount sampleEnv Sys.init "" "true"
        = some ({ code := StatusBadRequest, body := [("error", "Invalid sub-account")] }, Sys.init)
    ∧ (∀ n d r s1, runForMainAccount sampleEnv Sys.init n d = some (r, s1) →
        Sys.init.log.length < s1.log.length)
    ∧ (∀ n d r s1, runOnce sampleEnv Sys.init n d = some (r, s1) →
        s1.reads = Sys.init.reads + 1 ∧ Sys.init.log.length < s1.log.length)
    ∧ (∀ resp s1, postMainAccount sampleEnv Sys.init "alice" "true" = some (resp, s1) →
        resp.code = StatusOK)
    ∧ (∀ resp s1, postSubAccount sampleEnv Sys.init "alice" "true" = some (resp, s1) →
        resp.code = StatusOK) :=
  ⟨by decide, empty_name_rejected_before_any_read sampleEnv Sys.init "alice" "true" (by decide)⟩

/-! ## C10: the machine-details table -/

theorem foldl_machineRowHtml (fmt : Fmt) (now : Time) (name : String) (rows : List MachineRow) :
    ∀ res : String, rows.foldl (machineRowHtml fmt now name) res
      = res ++ joinAll ((rows.filterMap scanMachine).map fun p => machineHtml fmt now name p.1 p.2) := by
  induction rows with
  | nil => intro res; simp [joinAll]
  | cons r rows ih =>
    intro res
    rw [List.foldl_cons, ih]
    unfold machineRowHtml
    cases hs : scanMachine r with
    | none => simp [List.filterMap_cons, hs]
    | some p => simp [List.filterMap_cons, hs, joinAll, String.append_assoc]

theorem runOnceAt_of_overview_ok (env : Env) (now : Time) (s : Sys) (name : String) (sd : Bool)
    (ov : Overview) (hov : (getOverview env s name).1 = Except.ok ov) :
    runOnceAt env now s name sd =
      match (env.cur (s.exec (Query.overview name))).ids name with
      | Except.error _ => none
      | Except.ok (mainAccountID, subAccountID, mainAccountName) =>
        if sd = true then
          match (env.cur (showSubAccountRewards env
              ((s.exec (Query.overview name)).exec (Query.ids name)) name).2).machineDetails name with
          | Except.error _ => none
          | Except.ok rows =>
            some (overviewHtml name subAccountID mainAccountID
                    { ov with MainAccountName := mainAccountName }
                    (showSubAccountRewards env
                      ((s.exec (Query.overview name)).exec (Query.ids name)) name).1
                  ++ machineTableHead
                  ++ joinAll ((rows.filterMap scanMachine).map
                      fun p => machineHtml env.fmt now name p.1 p.2)
                  ++ "</table>",
                (showSubAccountRewards env
                  ((s.exec (Query.overview name)).exec (Query.ids name)) name).2.exec
                  (Query.machineDetails name))
        else
          some (overviewHtml name subAccountID mainAccountID
                  { ov with MainAccountName := mainAccountName }
                  (showSubAccountRewards env
                    ((s.exec (Query.overview name)).exec (Query.ids name)) name).1,
                (showSubAccountRewards env
                  ((s.exec (Query.overview name)).exec (Query.ids name)) name).2) := by
  unfold runOnceAt
  rw [getOverview_eq, hov]
  simp only []
  cases hid : (env.cur (s.exec (Query.overview name))).ids name with
  | error e => rfl
  | ok ids =>
    obtain ⟨a, b, c⟩ := ids
    simp only []
    cases sd with
    | false => simp
    | true =>
      simp only [if_true]
      cases hm : (env.cur (showSubAccountRewards env
          ((s.exec (Query.overview name)).exec (Query.ids name)) name).2).machineDetails name with
      | error e => rfl
      | ok rows =>
        simp only []
        rw [foldl_machineRowHtml]

theorem runOnceAt_of_overview_error (env : Env) (now : Time) (s : Sys) (name : String) (sd : Bool)
    (err : SqlErr) (herr : (getOverview env s name).1 = Except.error err) :
    runOnceAt env now s name sd
      = some (overviewErrorText name err, s.exec (Query.overview name)) := by
  unfold runOnceAt
  rw [getOverview_eq, herr]

theorem head_append (a b : String) (c : Char) (h : a.data.head? = some c) :
    (a ++ b).data.head? = some c := by
  rw [String.data_append]
  cases hd : a.data with
  | nil => rw [hd] at h; exact absurd h (by simp)
  | cons x xs => rw [hd] at h; simpa using h

theorem overviewHtml_head (name : String) (a b : Int) (ov : Overview) (rewards : String) :
    (overviewHtml name a b ov rewards).data.head? = some '<' := by
  unfold overviewHtml
  repeat apply head_append
  rfl

theorem runOnce_report_head (env : Env) (s : Sys) (name : String) (sd : Bool) (ov : Overview)
    (r : String) (s1 : Sys)
    (hov : (getOverview env (timeNow env s).2 name).1 = Except.ok ov)
    (h : runOnce env s name sd = some (r, s1)) : r.data.head? = some '<' := by
  unfold runOnce at h
  rw [runOnceAt_of_overview_ok env _ _ name sd ov hov] at h
  cases hid : (env.cur ((timeNow env s).2.exec (Query.overview name))).ids name with
  | error e => rw [hid] at h; exact absurd h (by simp)
  | ok ids =>
    obtain ⟨a, b, c⟩ := ids
    rw [hid] at h
    simp only [] at h
    cases sd with
    | false =>
      simp only [Bool.false_eq_true, if_false, Option.some.injEq, Prod.mk.injEq] at h
      rw [← h.1]
      exact overviewHtml_head _ _ _ _ _
    | true =>
      simp only [if_true] at h
      cases hm : (env.cur (showSubAccountRewards env
          (((timeNow env s).2.exec (Query.overview name)).exec (Query.ids name)) name).2).machineDetails
          name with
      | error e => rw [hm] at h; exact absurd h (by simp)
      | ok rows =>
        rw [hm] at h
        simp only [Option.some.injEq, Prod.mk.injEq] at h
        rw [← h.1]
        apply head_append
        apply head_append
        apply head_append
        exact overviewHtml_head _ _ _ _ _

theorem overviewErrorText_head (name : String) (err : SqlErr) :
    (overviewErrorText name err).data.head? = some 'E' := by
  unfold overviewErrorText
  repeat apply head_append
  rfl

/-- C6, as stated, fails: with the store unreachable `getOverview` returns an error, and
the handler still replies with status 200 and the message `Sub-account alice processed`. -/
theorem failed_overview_reply_has_success_shape :
    (getOverview downEnv (timeNow downEnv Sys.init).2 "alice").1
      = Except.error (SqlErr.other "dial tcp 127.0.0.1:5432: connect: connection refused")
    ∧ postSubAccount downEnv Sys.init "alice" "false"
      = some ({ code := 200
                body := [("message", "Sub-account alice processed"),
                         ("result", "Error fetching overview for alice: dial tcp 127.0.0.1:5432: connect: connection refused")] },
              { reads := 1, log := [Query.overview "alice"] }) :=
  ⟨rfl, by decide⟩

/-- C6, amended: when `getOverview` returns an error, the handler of `/sub-account` replies
with status 200 and the message `Sub-account <name> processed`, as for a successful report;
the failure shows only in the result text, `Error fetching overview for <name>: <error>`,
which differs from every report built after a successful `getOverview` (those start with
`<`).  When the identifiers cannot be resolved, the run ends in `log.Fatalf` and there is
no reply. -/
theorem failed_report_reply (env : Env) (s : Sys) (name sd : String) (hne : name ≠ "") :
    (∀ err, (getOverview env (timeNow env s).2 name).1 = Except.error err →
      postSubAccount env s name sd
        = some ({ code := StatusOK
                  body := [("message", "Sub-account " ++ name ++ " processed"),
                           ("result", overviewErrorText name err)] },
                (timeNow env s).2.exec (Query.overview name)))
    ∧ (∀ ov e, (getOverview env (timeNow env s).2 name).1 = Except.ok ov →
        (env.cur ((timeNow env s).2.exec (Query.overview name))).ids name = Except.error e →
        postSubAccount env s name sd = none)
    ∧ (∀ (env2 : Env) (s2 s3 : Sys) (d : Bool) (ov : Overview) (r : String) (err : SqlErr),
        (getOverview env2 (timeNow env2 s2).2 name).1 = Except.ok ov →
        runOnce env2 s2 name d = some (r, s3) → r ≠ overviewErrorText name err) := by
  refine ⟨?_, ?_, ?_⟩
  · intro err herr
    unfold postSubAccount runOnce
    simp only [ne_eq, hne, not_false_eq_true, if_true]
    rw [runOnceAt_of_overview_error env _ _ name _ err herr]
  · intro ov e hov hid
    unfold postSubAccount runOnce
    simp only [ne_eq, hne, not_false_eq_true, if_true]
    rw [runOnceAt_of_overview_ok env _ _ name _ ov hov, hid]
  · intro env2 s2 s3 d ov r err hov hr heq
    have h1 := runOnce_report_head env2 s2 name d ov r s3 hov hr
    have h2 := overviewErrorText_head name err
    rw [heq, h2] at h1
    exact absurd h1 (by decide)

theorem failed_report_reply_witness :
    "alice" ≠ ""
    ∧ (getOverview downEnv (timeNow downEnv Sys.init).2 "alice").1
      = Except.error (SqlErr.other "dial tcp 127.0.0.1:5432: connect: connection refused")
    ∧ postSubAccount downEnv Sys.init "alice" "true"
        = some ({ code := StatusOK
                  body := [("message", "Sub-account " ++ "alice" ++ " processed"),
                           ("result", overviewErrorText "alice"
                              (SqlErr.other "dial tcp 127.0.0.1:5432: connect: connection refused"))] },
                (timeNow downEnv Sys.init).2.exec (Query.overview "alice")) :=
  ⟨by decide, rfl,
    (failed_report_reply downEnv Sys.init "alice" "true" (by decide)).1
      (SqlErr.other "dial tcp 127.0.0.1:5432: connect: connection refused") rfl⟩

/-! ## C3: the `now` of the reports of a walk -/

theorem machineHtml_valid (fmt : Fmt) (now : Time) (name : String) (m : Machine) (v : Int) :
    machineHtml fmt now name m { Int64 := v, Valid := true } =
      "<tr><td>" ++ name ++ "</td><td>" ++ m.CreatedAt ++ "</td><td>" ++ m.Name
        ++ "</td><td>" ++ m.Project ++ "</td><td>"
        ++ fmt.time ((Time.Unix v).In Location.shanghai) ++ "</td><td>"
        ++ fmt.f0 (Duration.Seconds (now.Sub ((Time.Unix v).In Location.shanghai)))
        ++ "</td><td>" ++ statusOf { Int64 := v, Valid := true } now ++ "</td></tr>" := by
  unfold machineHtml statusOf
  simp only [if_true]
  have h1 : (ConvertToShanghaiTime { Int64 := v, Valid := true } now).1
      = (Time.Unix v).In Location.shanghai := by
    unfold ConvertToShanghaiTime
    simp only [Bool.not_true, Bool.false_eq_true, if_false]
    split_ifs <;> rfl
  have h2 : (ConvertToShanghaiTime { Int64 := v, Valid := true } now).2.1
      = now.Sub ((Time.Unix v).In Location.shanghai) := by
    unfold ConvertToShanghaiTime
    simp only [Bool.not_true, Bool.false_eq_true, if_false]
    split_ifs <;> rfl
  rw [h1, h2]

set_option maxRecDepth 4000 in
theorem walkEnv_with (nows : Nat → Time) :
    (runForMainAccountWith walkEnv nows Sys.init "m@x.com" true).map Prod.fst =
      some ("" ++ (walkHead1 ++ machineTableHead
              ++ machineHtml maskFmt (nows 0) "s1"
                  { CreatedAt := "c", Name := "m1", Project := "p", LastCommitSolution := "",
                    Status := "" } { Int64 := 999400, Valid := true }
              ++ "</table>")
            ++ (walkHead2 ++ machineTableHead
              ++ machineHtml maskFmt (nows 1) "s2"
                  { CreatedAt := "c", Name := "m2", Project := "p", LastCommitSolution := "",
                    Status := "" } { Int64 := 999400, Valid := true }
              ++ "</table>")) :=
  rfl

theorem walkRows_eq_walkRowsWith (env : Env) (sd : Bool) (rows : List (Option String)) :
    ∀ (res : String) (s : Sys),
      walkRows env sd rows res s
        = walkRowsWith env sd (fun k => env.clock (s.reads + k)) rows res s := by
  induction rows with
  | nil => intro res s; rfl
  | cons row rows ih =>
    intro res s
    cases row with
    | none => rfl
    | some n =>
      simp only [walkRows, walkRowsWith, runOnce]
      have h0 : env.clock (s.reads + 0) = (timeNow env s).1 := rfl
      rw [h0]
      cases hr : runOnceAt env (timeNow env s).1 (timeNow env s).2 n sd with
      | none => rfl
      | some p =>
        obtain ⟨r0, s0⟩ := p
        simp only []
        obtain ⟨h1, _⟩ := runOnceAt_state env _ _ n sd r0 s0 hr
        rw [ih]
        have hf : (fun k => env.clock (s0.reads + k)) = fun k => env.clock (s.reads + (k + 1)) := by
          funext k
          rw [h1]
          show env.clock (s.reads + 1 + k) = _
          congr 1
          omega
        rw [hf]

theorem runForMainAccount_eq_with (env : Env) (s : Sys) (mainAccountName : String)
    (showDetails : Bool) :
    runForMainAccount env s mainAccountName showDetails
      = runForMainAccountWith env (fun k => env.clock (s.reads + k)) s mainAccountName
          showDetails := by
  unfold runForMainAccount runForMainAccountWith
  cases (env.cur s).subAccounts mainAccountName with
  | error e => rfl
  | ok rows =>
    simp only []
    rw [walkRows_eq_walkRowsWith]
    rfl

theorem status_data_ne (a b : List Char) :
    statusActive.data ++ a ≠ statusInactive.data ++ b
    ∧ statusActive.data ++ a ≠ statusFailed.data ++ b
    ∧ statusInactive.data ++ a ≠ statusActive.data ++ b := by
  refine ⟨?_, ?_, ?_⟩ <;> intro h <;>
    · have h1 := congrArg List.head? h
      simp [statusActive, statusInactive, statusFailed] at h1

/-- C3, as stated, fails: on the walk tables the two sub-accounts have a machine with the
same heartbeat, the first report is computed at epoch second 1000000 (age 600, Active) and
the second at 1000001 (age 601, Inactive); no single `now` gives that walk. -/
theorem walk_is_not_computed_at_one_now : ¬ WalkUsesOneNow walkEnv Sys.init "m@x.com" true := by
  rintro ⟨now, h⟩
  rw [runForMainAccount_eq_with, walkEnv_with, walkEnv_with, machineHtml_valid, machineHtml_valid,
    machineHtml_valid, machineHtml_valid] at h
  have hA : statusOf { Int64 := 999400, Valid := true } (walkEnv.clock (Sys.init.reads + 0))
      = statusActive := by decide
  have hI : statusOf { Int64 := 999400, Valid := true } (walkEnv.clock (Sys.init.reads + 1))
      = statusInactive := by decide
  simp only [hA, hI, maskFmt] at h
  have hd := congrArg String.data (Option.some.inj h)
  simp only [String.data_append, List.append_assoc, List.append_cancel_left_eq] at hd
  rcases statusOf_three 999400 now with hs | hs | hs
  · rw [hs] at hd
    simp only [List.append_cancel_left_eq] at hd
    exact (status_data_ne _ _).2.2 hd
  · rw [hs] at hd
    exact (status_data_ne _ _).1 hd
  · rw [hs] at hd
    exact (status_data_ne _ _).2.1 hd

/-- C3, amended: in `runForMainAccount` every report is computed against the `now` that its
own `runOnce` reads from the clock when it starts, so the report of the k-th resolved
sub-account uses the k-th clock reading taken during the walk; inside one report every
machine is classified against that one reading. -/
theorem runForMainAccount_reads_clock_per_report (env : Env) (s : Sys) (mainAccountName : String)
    (showDetails : Bool) (rows : List (Option String)) (res : String) :
    runForMainAccount env s mainAccountName showDetails
      = runForMainAccountWith env (fun k => env.clock (s.reads + k)) s mainAccountName
          showDetails
    ∧ walkRows env showDetails rows res s
      = walkRowsWith env showDetails (fun k => env.clock (s.reads + k)) rows res s :=
  ⟨runForMainAccount_eq_with env s mainAccountName showDetails,
    walkRows_eq_walkRowsWith env showDetails rows res s⟩

/-! ## C5: the walk concatenates the reports in resolution order -/

theorem subAccountsQuery_eq (db : Tables) (mainAccountName : String) :
    subAccountsQuery db mainAccountName = (resolvedSubAccounts db mainAccountName).map some := by
  unfold subAccountsQuery resolvedSubAccounts
  induction db.miner_account with
  | nil => rfl
  | cons ma t ih =>
    rw [List.flatMap_cons, List.flatMap_cons, List.map_append, ih, List.map_map]
    rfl

theorem walkRows_eq_runEach (env : Env) (sd : Bool) (names : List String) :
    ∀ (res : String) (s : Sys),
      walkRows env sd (names.map some) res s
        = (runEach env sd names s).map fun p => (res ++ joinAll p.1, p.2) := by
  induction names with
  | nil => intro res s; simp [walkRows, runEach, joinAll]
  | cons n ns ih =>
    intro res s
    simp only [List.map_cons, walkRows, runEach]
    cases hr : runOnce env s n sd with
    | none => rfl
    | some p =>
      obtain ⟨r, s1⟩ := p
      simp only []
      rw [ih]
      cases he : runEach env sd ns s1 with
      | none => rfl
      | some q =>
        obtain ⟨rs, s2⟩ := q
        simp [joinAll, String.append_assoc]

theorem showSubAccountRewards_log (env : Env) (s : Sys) (name : String) :
    ∃ l, (showSubAccountRewards env s name).2.log = s.log ++ l
      ∧ l.filterMap overviewName = [] := by
  unfold showSubAccountRewards
  cases (env.cur s).rewardRows name with
  | error e => exact ⟨[Query.rewardRows name], rfl, rfl⟩
  | ok rows =>
    simp only []
    cases (env.cur (s.exec (Query.rewardRows name))).rewardTotal name with
    | error e =>
      exact ⟨[Query.rewardRows name, Query.rewardTotal name], by simp [Sys.exec], rfl⟩
    | ok t =>
      exact ⟨[Query.rewardRows name, Query.rewardTotal name], by simp [Sys.exec], rfl⟩

theorem runOnce_log (env : Env) (s : Sys) (name : String) (sd : Bool)
    (r : String) (s1 : Sys) (h : runOnce env s name sd = some (r, s1)) :
    ∃ l, s1.log = s.log ++ l ∧ l.filterMap overviewName = [name] := by
  unfold runOnce at h
  cases hov : (getOverview env (timeNow env s).2 name).1 with
  | error e =>
    rw [runOnceAt_of_overview_error env _ _ name sd e hov] at h
    simp only [Option.some.injEq, Prod.mk.injEq] at h
    obtain ⟨_, rfl⟩ := h
    exact ⟨[Query.overview name], rfl, rfl⟩
  | ok ov =>
    rw [runOnceAt_of_overview_ok env _ _ name sd ov hov] at h
    cases hid : (env.cur ((timeNow env s).2.exec (Query.overview name))).ids name with
    | error e => rw [hid] at h; exact absurd h (by simp)
    | ok ids =>
      obtain ⟨a, b, c⟩ := ids
      rw [hid] at h
      simp only [] at h
      obtain ⟨l, hl, hn⟩ := showSubAccountRewards_log env
        (((timeNow env s).2.exec (Query.overview name)).exec (Query.ids name)) name
      cases sd with
      | false =>
        simp only [Bool.false_eq_true, if_false, Option.some.injEq, Prod.mk.injEq] at h
        obtain ⟨_, rfl⟩ := h
        refine ⟨Query.overview name :: Query.ids name :: l, ?_, ?_⟩
        · rw [hl]; simp [Sys.exec, timeNow]
        · simp [overviewName, hn]
      | true =>
        simp only [if_true] at h
        cases hm : (env.cur (showSubAccountRewards env
            (((timeNow env s).2.exec (Query.overview name)).exec (Query.ids name)) name).2).machineDetails
            name with
        | error e => rw [hm] at h; exact absurd h (by simp)
        | ok rows =>
          rw [hm] at h
          simp only [Option.some.injEq, Prod.mk.injEq] at h
          obtain ⟨_, rfl⟩ := h
          refine ⟨Query.overview name :: Query.ids name :: (l ++ [Query.machineDetails name]), ?_, ?_⟩
          · show (showSubAccountRewards env
              (((timeNow env s).2.exec (Query.overview name)).exec (Query.ids name))
              name).2.log ++ [Query.machineDetails name] = _
            rw [hl]; simp [Sys.exec, timeNow]
          · simp [overviewName, hn]

theorem runEach_log (env : Env) (sd : Bool) (names : List String) :
    ∀ (s : Sys) (rs : List String) (s1 : Sys), runEach env sd names s = some (rs, s1) →
      rs.length = names.length
      ∧ ∃ l, s1.log = s.log ++ l ∧ l.filterMap overviewName = names := by
  induction names with
  | nil =>
    intro s rs s1 h
    simp only [runEach, Option.some.injEq, Prod.mk.injEq] at h
    obtain ⟨rfl, rfl⟩ := h
    exact ⟨rfl, [], by simp, rfl⟩
  | cons n ns ih =>
    intro s rs s1 h
    simp only [runEach] at h
    cases hr : runOnce env s n sd with
    | none => rw [hr] at h; exact absurd h (by simp)
    | some p =>
      obtain ⟨r0, s0⟩ := p
      rw [hr] at h
      simp only [] at h
      cases he : runEach env sd ns s0 with
      | none => rw [he] at h; exact absurd h (by simp)
      | some q =>
        obtain ⟨rs0, s2⟩ := q
        rw [he] at h
        simp only [Option.some.injEq, Prod.mk.injEq] at h
        obtain ⟨rfl, rfl⟩ := h
        obtain ⟨l1, hl1, hn1⟩ := runOnce_log env s n sd r0 s0 hr
        obtain ⟨hlen, l2, hl2, hn2⟩ := ih s0 rs0 _ he
        refine ⟨by simp [hlen], l1 ++ l2, ?_, ?_⟩
        · rw [hl2, hl1, List.append_assoc]
        · rw [List.filterMap_append, hn1, hn2]; rfl

theorem idsQuery_of_resolved (db : Tables) (mainAccountName n : String)
    (hn : n ∈ resolvedSubAccounts db mainAccountName) :
    ∃ ids, idsQuery db n = Except.ok ids := by
  unfold resolvedSubAccounts at hn
  rw [List.mem_flatMap] at hn
  obtain ⟨ma, hma, hx⟩ := hn
  rw [List.mem_map] at hx
  obtain ⟨u, hu, rfl⟩ := hx
  rw [List.mem_filter] at hu
  obtain ⟨hu1, hu2⟩ := hu
  have hu3 : ma.main_user_id = u.id := by
    have := of_decide_eq_true hu2
    exact this.1
  have hmem : (u.id, ma.id, u.email) ∈
      (db.miner_account.filter (fun a => decide (a.name = ma.name))).flatMap (fun a =>
        (db.user.filter (fun v => decide (a.main_user_id = v.id))).map
          fun v => (v.id, a.id, v.email)) := by
    rw [List.mem_flatMap]
    refine ⟨ma, List.mem_filter.mpr ⟨hma, by simp⟩, ?_⟩
    rw [List.mem_map]
    exact ⟨u, List.mem_filter.mpr ⟨hu1, by simpa using hu3⟩, rfl⟩
  unfold idsQuery
  cases hl : (db.miner_account.filter (fun a => decide (a.name = ma.name))).flatMap (fun a =>
        (db.user.filter (fun v => decide (a.main_user_id = v.id))).map
          fun v => (v.id, a.id, v.email)) with
  | nil => rw [hl] at hmem; exact absurd hmem (List.not_mem_nil _)
  | cons r rest => exact ⟨r, rfl⟩

theorem runOnce_tables_total (db : Tables) (quoted : String → Except SqlErr OverviewRow)
    (sqlNow : Nat → Int) (clock : Nat → Time) (fmt : Fmt) (mainAccountName n : String)
    (hn : n ∈ resolvedSubAccounts db mainAccountName) (s : Sys) (sd : Bool) :
    ∃ r s1, runOnce (tablesEnv db quoted sqlNow clock fmt) s n sd = some (r, s1) := by
  obtain ⟨ids, hids⟩ := idsQuery_of_resolved db mainAccountName n hn
  obtain ⟨a, b, c⟩ := ids
  unfold runOnce
  cases hov : (getOverview (tablesEnv db quoted sqlNow clock fmt)
      (timeNow (tablesEnv db quoted sqlNow clock fmt) s).2 n).1 with
  | error e =>
    rw [runOnceAt_of_overview_error _ _ _ n sd e hov]
    exact ⟨_, _, rfl⟩
  | ok ov =>
    rw [runOnceAt_of_overview_ok _ _ _ n sd ov hov]
    have h1 : ((tablesEnv db quoted sqlNow clock fmt).cur
        ((timeNow (tablesEnv db quoted sqlNow clock fmt) s).2.exec (Query.overview n))).ids n
        = Except.ok (a, b, c) := hids
    rw [h1]
    cases sd with
    | false => exact ⟨_, _, rfl⟩
    | true => exact ⟨_, _, rfl⟩

theorem runEach_tables_total (db : Tables) (quoted : String → Except SqlErr OverviewRow)
    (sqlNow : Nat → Int) (clock : Nat → Time) (fmt : Fmt) (mainAccountName : String) (sd : Bool)
    (names : List String) (hnames : ∀ n ∈ names, n ∈ resolvedSubAccounts db mainAccountName) :
    ∀ s : Sys, ∃ rs s1,
      runEach (tablesEnv db quoted sqlNow clock fmt) sd names s = some (rs, s1) := by
  induction names with
  | nil => intro s; exact ⟨[], s, rfl⟩
  | cons n ns ih =>
    intro s
    obtain ⟨r, s1, hr⟩ := runOnce_tables_total db quoted sqlNow clock fmt mainAccountName n
      (hnames n (List.mem_cons_self _ _)) s sd
    obtain ⟨rs, s2, he⟩ := ih (fun x hx => hnames x (List.mem_cons_of_mem _ hx)) s1
    refine ⟨r :: rs, s2, ?_⟩
    simp only [runEach, hr, he]

/-- C5: the text returned by `runForMainAccount` is the concatenation, in the order the
sub-accounts were resolved, of the texts `runOnce` returns for each of them, one run per
resolved sub-account (the empty text when there is none).  Over the tables the walk always
returns, with as many reports as resolved sub-accounts, and the overview statements it sends
are those of the resolved names, once each and in that order. -/
theorem runForMainAccount_concatenates (env : Env) (names : List String) (db : Tables)
    (quoted : String → Except SqlErr OverviewRow) (sqlNow : Nat → Int) (clock : Nat → Time)
    (fmt : Fmt) (s : Sys) (mainAccountName : String) (sd : Bool) :
    ((env.cur s).subAccounts mainAccountName = Except.ok (names.map some) →
      runForMainAccount env s mainAccountName sd
        = (runEach env sd names (s.exec (Query.subAccounts mainAccountName))).map
            fun p => (joinAll p.1, p.2))
    ∧ (∃ rs s1,
        runEach (tablesEnv db quoted sqlNow clock fmt) sd (resolvedSubAccounts db mainAccountName)
            (s.exec (Query.subAccounts mainAccountName)) = some (rs, s1)
        ∧ runForMainAccount (tablesEnv db quoted sqlNow clock fmt) s mainAccountName sd
            = some (joinAll rs, s1)
        ∧ rs.length = (resolvedSubAccounts db mainAccountName).length
        ∧ (s1.log.drop (s.log.length + 1)).filterMap overviewName
            = resolvedSubAccounts db mainAccountName)
    ∧ (resolvedSubAccounts db mainAccountName = [] →
        runForMainAccount (tablesEnv db quoted sqlNow clock fmt) s mainAccountName sd
          = some ("", s.exec (Query.subAccounts mainAccountName))) := by
  have hgen : ∀ (e : Env) (ns : List String),
      (e.cur s).subAccounts mainAccountName = Except.ok (ns.map some) →
      runForMainAccount e s mainAccountName sd
        = (runEach e sd ns (s.exec (Query.subAccounts mainAccountName))).map
            fun p => (joinAll p.1, p.2) := by
    intro e ns h
    unfold runForMainAccount
    rw [h]
    simp only []
    rw [walkRows_eq_runEach]
    cases runEach e sd ns (s.exec (Query.subAccounts mainAccountName)) with
    | none => rfl
    | some p => simp
  have htab : ((tablesEnv db quoted sqlNow clock fmt).cur s).subAccounts mainAccountName
      = Except.ok ((resolvedSubAccounts db mainAccountName).map some) := by
    show Except.ok (subAccountsQuery db mainAccountName) = _
    rw [subAccountsQuery_eq]
  refine ⟨hgen env names, ?_, ?_⟩
  · obtain ⟨rs, s1, he⟩ := runEach_tables_total db quoted sqlNow clock fmt mainAccountName sd
      (resolvedSubAccounts db mainAccountName) (fun n hn => hn)
      (s.exec (Query.subAccounts mainAccountName))
    obtain ⟨hlen, l, hl, hnames⟩ := runEach_log _ sd _ _ rs s1 he
    refine ⟨rs, s1, he, ?_, hlen, ?_⟩
    · rw [hgen _ _ htab, he]
      rfl
    · rw [hl]
      have : (s.exec (Query.subAccounts mainAccountName)).log.length = s.log.length + 1 := by
        simp [Sys.exec]
      rw [← this, List.drop_left]
      exact hnames
  · intro hnone
    rw [hgen _ _ htab, hnone]
    rfl

theorem runForMainAccount_concatenates_witness :
    (walkEnv.cur Sys.init).subAccounts "m@x.com" = Except.ok (["s1", "s2"].map some)
    ∧ runForMainAccount walkEnv Sys.init "m@x.com" true
        = (runEach walkEnv true ["s1", "s2"] (Sys.init.exec (Query.subAccounts "m@x.com"))).map
            fun p => (joinAll p.1, p.2) :=
  ⟨rfl,
    (runForMainAccount_concatenates walkEnv ["s1", "s2"] walkTables sampleQuoted
      (fun _ => 1000000000000)
      (fun k => { unixNano := (1000000 + (k : Int)) * 1000000000, loc := Location.localZone })
      maskFmt Sys.init "m@x.com" true).1 rfl⟩

/-! ## The scenarios of the specification, on the sample data -/

theorem scenario_alice :
    (getOverview sampleEnv Sys.init "alice").1 =
      Except.ok
        { MainAccountName := "m@x.com"
          TotalMachines := 3
          ActiveMachines := 1
          InactiveMachines := 1
          FailedMachines := 1
          InvalidMachines := 0
          Machines := [] } :=
  rfl

theorem scenario_bob :
    (getOverview sampleEnv Sys.init "bob").1 =
      Except.ok
        { MainAccountName := "m@x.com"
          TotalMachines := 0
          ActiveMachines := 0
          InactiveMachines := 0
          FailedMachines := 0
          InvalidMachines := 0
          Machines := [] } :=
  rfl

theorem scenario_carol :
    (getOverview sampleEnv Sys.init "carol").1 =
      Except.ok
        { MainAccountName := "m@x.com"
          TotalMachines := 1
          ActiveMachines := 0
          InactiveMachines := 0
          FailedMachines := 0
          InvalidMachines := 1
          Machines := [] } :=
  rfl

theorem scenario_unknown_name_ends_the_process :
    runOnce sampleEnv Sys.init "ghost" false = none :=
  rfl

end OulaMonitor
